import Mathlib

/-!
# Verification of the code-scan-docs analyzer core

A shallow embedding, in Lean 4, of the analyzer plugins of the
`conversadocs/code-scan-docs` repository:

* `src/plugins/shared/python/csd_plugin_sdk/base/input.py` (data model,
  `calculate_complexity`, `detect_import_type`, cache filenames),
* `src/plugins/shared/base_analyzer.py` (legacy copy of the above),
* `src/plugins/input/code/python_analyzer.py` (AST-based Python engine),
* `src/plugins/input/code/rust_analyzer.py` (heuristic Rust engine),

followed by theorems settling the specification claims.

Modelling conventions:
* Python `str` is Lean `String`; character-level operations work on `String.data`.
  ASCII text is assumed for `lower()`/`\w`/`\s` character classes (every string
  the analyzers compare against is ASCII).
* Python floats appearing in outputs (the probe confidences, relationship
  strengths) are exact decimal literals in the source; they are modelled as `ℚ`.
* The filesystem probe `Path.exists()` is an explicit parameter `fs : String → Bool`.
* CPython's `ast.parse` is an explicit parameter `parse : String → Except String PyMod`;
  an `Except.error` models a raised `SyntaxError` whose rendered message is the
  payload.  Line numbers in parser-produced trees are in range of the source,
  so line lookups use `getD` (CPython would raise `IndexError` on an impossible
  tree, which `ast.parse` never yields).
* Python `dict` metadata payloads are association lists over an inductive
  `MetaVal` of the value shapes the analyzers actually store.
-/

namespace CSD

/-! ## Character classes and Python string primitives -/

/-- Python `str.strip()` whitespace / regex `\s` (ASCII): space, tab, newline,
carriage return, vertical tab, form feed. -/
def pyIsSpace (c : Char) : Bool :=
  c = ' ' || c = '\t' || c = '\n' || c = '\r' || c = Char.ofNat 11 || c = Char.ofNat 12

/-- Regex `\w` (ASCII): letters, digits, underscore. -/
def isWordChar (c : Char) : Bool :=
  ('a' ≤ c && c ≤ 'z') || ('A' ≤ c && c ≤ 'Z') || ('0' ≤ c && c ≤ '9') || c = '_'

/-- ASCII `str.lower()` on one character. -/
def pyLowerChar (c : Char) : Char :=
  if 'A' ≤ c && c ≤ 'Z' then Char.ofNat (c.toNat + 32) else c

/-- ASCII `str.lower()`. -/
def pyLower (s : String) : String := ⟨s.data.map pyLowerChar⟩

/-- Split a character list at every occurrence of `c` (Python `str.split(sep)`
for a one-character separator: empty pieces are kept). -/
def splitChar (c : Char) : List Char → List (List Char)
  | [] => [[]]
  | x :: xs =>
    match splitChar c xs with
    | [] => [[]]
    | r :: rs => if x = c then [] :: r :: rs else (x :: r) :: rs

/-- Python `content.split("\n")`. -/
def pySplitNl (s : String) : List String := (splitChar '\n' s.data).map List.asString

/-- Python `sep.join(xs)`. -/
def pyJoin (sep : String) (xs : List String) : String := String.intercalate sep xs

/-- Python `str.lstrip()`. -/
def pyLStrip (s : String) : String := ⟨s.data.dropWhile pyIsSpace⟩

/-- Python `str.rstrip()`. -/
def pyRStrip (s : String) : String := ⟨(s.data.reverse.dropWhile pyIsSpace).reverse⟩

/-- Python `str.strip()`. -/
def pyStrip (s : String) : String := pyRStrip (pyLStrip s)

/-- Python `needle in hay` (substring containment) on character lists. -/
def containsSub (p : List Char) : List Char → Bool
  | [] => p.isPrefixOf ([] : List Char)
  | c :: t => p.isPrefixOf (c :: t) || containsSub p t

/-- Python `sub in s`. -/
def pyIn (sub s : String) : Bool := containsSub sub.data s.data

/-- Python `s.startswith(p)`. -/
def pyStartsWith (s p : String) : Bool := p.data.isPrefixOf s.data

/-- Python `s.endswith(p)`. -/
def pyEndsWith (s p : String) : Bool := p.data.isSuffixOf s.data

/-- Auxiliary scanner for `cntSub`: `skip` is the number of characters of a
just-found occurrence still to step over before matching may resume. -/
def cntSubAux (p : List Char) : List Char → Nat → Nat
  | [], _ => 0
  | _ :: t, s + 1 => cntSubAux p t s
  | c :: t, 0 =>
    if p.isPrefixOf (c :: t) then 1 + cntSubAux p t (p.length - 1)
    else cntSubAux p t 0

/-- Python `s.count(sub)` for a non-empty `sub`: number of non-overlapping
occurrences, scanning from the left (for empty `sub`, `len(s) + 1`). -/
def cntSub (p t : List Char) : Nat :=
  if p.isEmpty then t.length + 1 else cntSubAux p t 0

/-- Python `s.count(sub)`. -/
def pyCount (sub s : String) : Nat := cntSub sub.data s.data

/-- Python `s.replace(a, b)` for one-character `a`, `b`. -/
def pyReplaceChar (a b : Char) (s : String) : String :=
  ⟨s.data.map fun c => if c = a then b else c⟩

/-- Index just after the last occurrence of `c`, if any. -/
def lastIdxOf (c : Char) (l : List Char) : Option Nat :=
  (l.reverse.findIdx? (· = c)).map fun j => l.length - 1 - j

/-- Python `s.split(sep, 1)` for a multi-character separator: splits at the
first occurrence, `none` when `sep` does not occur. -/
def splitOnceSub (sep : List Char) : List Char → Option (List Char × List Char)
  | [] => if sep.isPrefixOf ([] : List Char) then some ([], []) else none
  | c :: t =>
    if sep.isPrefixOf (c :: t) then some ([], (c :: t).drop sep.length)
    else match splitOnceSub sep t with
      | some (l, r) => some (c :: l, r)
      | none => none

/-- Python `s.split(sep)[0]`: the prefix before the first occurrence of `sep`
(the whole string when `sep` is absent). -/
def beforeFirst (sep s : String) : String :=
  match splitOnceSub sep.data s.data with
  | some (l, _) => ⟨l⟩
  | none => s

/-- Python `s.split(sep, 1)` where `sep` is known to occur. -/
def pySplitOnce (sep s : String) : Option (String × String) :=
  (splitOnceSub sep.data s.data).map fun (l, r) => (⟨l⟩, ⟨r⟩)

/-- Python list slice `xs[a:b]` for `0 ≤ a`, `0 ≤ b`. -/
def pySlice (a b : Nat) (xs : List α) : List α := (xs.take b).drop a

/-- Count of maximal runs of characters satisfying `good`. -/
def countRunsAux (good : Char → Bool) : List Char → Bool → Nat
  | [], _ => 0
  | c :: t, inRun =>
    if good c then (if inRun then 0 else 1) + countRunsAux good t true
    else countRunsAux good t false

def countRuns (good : Char → Bool) (l : List Char) : Nat := countRunsAux good l false

/-! ## Path operations (`pathlib.Path`, POSIX paths)

The analyzers run `Path` over POSIX-style paths; Windows separators appear
only in the cache-filename sanitizer.  Paths are modelled as plain strings
joined with `/`, without normalization (none of the embedded code normalizes).
-/

/-- `Path(p).name`: the final path component. -/
def pyPathName (p : String) : String :=
  ⟨((splitChar '/' p.data).filter (· ≠ [])).getLastD []⟩

/-- `Path(p).suffix`: the last dot-suffix of the final component (pathlib:
the substring from the last `.` when that dot is neither first nor last). -/
def pyPathSuffix (p : String) : String :=
  let n := (pyPathName p).data
  match lastIdxOf '.' n with
  | some i => if 0 < i ∧ i < n.length - 1 then ⟨n.drop i⟩ else ""
  | none => ""

/-- `Path(p).parent` (without normalization). -/
def pyPathParent (p : String) : String :=
  match lastIdxOf '/' p.data with
  | none => "."
  | some 0 => "/"
  | some i => ⟨p.data.take i⟩

/-- `Path(a) / b`. -/
def pyPathJoin (a b : String) : String :=
  if a = "" || a = "." then b
  else if pyEndsWith a "/" then a ++ b
  else a ++ "/" ++ b

/-- `str(path.relative_to(root))`: strips `root`'s directory prefix; `none`
models the `ValueError` raised when `path` is not under `root`. -/
def pyRelativeTo (path root : String) : Option String :=
  if path = root then some "."
  else
    let r := if pyEndsWith root "/" then root else root ++ "/"
    if r.data.isPrefixOf path.data then some ⟨path.data.drop r.data.length⟩
    else none

/-! ## Structural IR (dataclasses of `csd_plugin_sdk/base/input.py`) -/

/-- Value shapes stored in the analyzers' `metadata` dictionaries. -/
inductive MetaVal where
  | b : Bool → MetaVal
  | s : String → MetaVal
  | n : Nat → MetaVal
  | os : Option String → MetaVal
  | ls : List String → MetaVal
  | kvs : List (String × String) → MetaVal
  | null : MetaVal
deriving DecidableEq, Repr

structure CodeElement where
  element_type : String
  name : String
  signature : Option String := none
  line_start : Nat := 0
  line_end : Nat := 0
  summary : Option String := none
  complexity_score : Option Nat := none
  calls : List String := []
  metadata : List (String × MetaVal) := []
  tokens : Option Nat := none
deriving DecidableEq, Repr

structure Import where
  module : String
  items : List String := []
  «alias» : Option String := none
  line_number : Nat := 0
  import_type : String := "standard"
deriving DecidableEq, Repr

structure Relationship where
  from_file : String
  to_file : String
  relationship_type : String
  details : String
  line_number : Option Nat := none
  strength : ℚ := 1.0
deriving DecidableEq, Repr

structure ExternalDependency where
  name : String
  version : Option String := none
  ecosystem : String := "unknown"
  dependency_type : String := "runtime"
  source_file : String := ""
deriving DecidableEq, Repr

/-- The `token_info` dictionary: its four keys are fixed at every
construction site. -/
structure TokenInfo where
  total_tokens : Nat
  code_tokens : Nat
  documentation_tokens : Nat
  comment_tokens : Nat
deriving DecidableEq, Repr

structure PluginInput where
  file_path : String
  relative_path : String
  content : String
  project_root : String
  cache_dir : String
deriving DecidableEq, Repr

structure PluginOutput where
  file_path : String
  file_hash : String
  elements : List CodeElement
  imports : List Import
  exports : List String
  relationships : List Relationship
  external_dependencies : List ExternalDependency
  file_summary : Option String := none
  processing_time_ms : Nat := 0
  plugin_version : String := "1.0.0"
  token_info : Option TokenInfo := none
  metadata : List (String × MetaVal) := []
deriving DecidableEq, Repr

/-! ## Token estimators

`estimate_tokens` and `estimate_code_tokens` appear verbatim in both
`python_analyzer.py` and `rust_analyzer.py`; both copies are embedded. -/

/-- `python_analyzer.estimate_tokens` (lines 29–36). -/
def estimate_tokens (text : String) : Nat :=
  if text = "" then 0 else max 1 (text.length / 4)

/-- `rust_analyzer.estimate_tokens` (lines 22–29): a verbatim copy. -/
def rust_estimate_tokens (text : String) : Nat :=
  if text = "" then 0 else max 1 (text.length / 4)

/-- The delimiter character class of `estimate_code_tokens`:
`[\(\)\{\}\[\]<>,.;:"\'\x60|\\\/\-+=*&%$#@!?~]`. -/
def isTokDelim (c : Char) : Bool :=
  c = '(' || c = ')' || c = Char.ofNat 123 || c = Char.ofNat 125 ||
  c = '[' || c = ']' || c = '<' || c = '>' || c = ',' || c = '.' ||
  c = ';' || c = ':' || c = '"' || c = '\'' || c = Char.ofNat 96 ||
  c = '|' || c = '\\' || c = '/' || c = '-' || c = '+' || c = '=' ||
  c = '*' || c = '&' || c = '%' || c = '$' || c = '#' || c = '@' ||
  c = '!' || c = '?' || c = '~'

/-- `estimate_code_tokens` (identical in both analyzer files): split on runs
of whitespace-or-delimiter characters, count the non-empty pieces, and add
half the number of delimiter characters. -/
def estimate_code_tokens (code : String) : Nat :=
  if code = "" then 0
  else
    let toks := countRuns (fun c => !(pyIsSpace c || isTokDelim c)) code.data
    let delims := (code.data.filter isTokDelim).length
    max 1 (toks + delims / 2)

/-! ## Complexity scorer

Two copies exist in the repository; both are embedded for the equivalence
claim. -/

def complexity_keywords : List String :=
  ["if", "elif", "else", "for", "while", "try", "except", "match", "case"]

/-- `calculate_complexity` from `csd_plugin_sdk/base/input.py` (lines 312–347). -/
def calculate_complexity (code : String) (element_start element_end : Nat) : Nat :=
  let lines := pySlice (element_start - 1) element_end (pySplitNl code)
  let code_block := pyJoin "\n" lines
  let base : Int := 1
  let kwAdd : Int := (complexity_keywords.map fun kw =>
    (pyCount (" " ++ kw ++ " ") code_block : Int) +
    (pyCount ("\t" ++ kw ++ " ") code_block : Int)).sum
  let defAdd : Int := (pyCount "def " code_block : Int) - 1
  (max 1 (base + kwAdd + defAdd)).toNat

/-- `calculate_complexity` from the legacy `shared/base_analyzer.py`
(lines 298–329). -/
def legacy_calculate_complexity (code : String) (element_start element_end : Nat) : Nat :=
  let lines := pySlice (element_start - 1) element_end (pySplitNl code)
  let code_block := pyJoin "\n" lines
  let base : Int := 1
  let kwAdd : Int := (complexity_keywords.map fun kw =>
    (pyCount (" " ++ kw ++ " ") code_block : Int) +
    (pyCount ("\t" ++ kw ++ " ") code_block : Int)).sum
  let defAdd : Int := (pyCount "def " code_block : Int) - 1
  (max 1 (base + kwAdd + defAdd)).toNat

/-! ## Import classification (`detect_import_type`, SDK copy) -/

def standard_modules : List String :=
  ["os", "sys", "json", "time", "datetime", "pathlib", "collections",
   "itertools", "functools", "typing", "dataclasses", "abc", "re", "math",
   "random", "urllib", "http", "socket", "threading", "asyncio", "logging",
   "argparse", "configparser", "csv", "xml", "sqlite3", "ast", "hashlib",
   "io", "unittest", "traceback"]

/-- `detect_import_type` (`csd_plugin_sdk/base/input.py`, lines 350–417).
`fs path` models `Path(path).exists()`. -/
def detect_import_type (fs : String → Bool)
    (module_name project_root file_path : String) : String :=
  if pyStartsWith module_name "." then "relative"
  else
    let file_dir := pyPathParent file_path
    let mp := pyReplaceChar '.' '/' module_name
    let potential_paths :=
      [pyPathJoin project_root (mp ++ ".py"),
       pyPathJoin project_root (mp ++ "/__init__.py"),
       pyPathJoin file_dir (mp ++ ".py"),
       pyPathJoin file_dir (mp ++ "/__init__.py")]
    if potential_paths.any fs then "local"
    else
      let root_module : String := ⟨((splitChar '.' module_name.data).headD [])⟩
      if standard_modules.contains root_module then "standard"
      else "third_party"

/-! ## MD5 and cache filenames

`BaseAnalyzer._generate_cache_filename` hashes `file_path + content` with MD5
and keeps the first 16 hex characters.  MD5 is embedded bit-faithfully over
natural numbers reduced mod `2^32`. -/

/-- Reduce mod `2^32`. -/
def u32 (n : Nat) : Nat := n % 4294967296

/-- 32-bit left rotation of `x < 2^32` by `s ≤ 32` bits. -/
def rotl32 (x s : Nat) : Nat := (x % 2 ^ (32 - s)) * 2 ^ s + x / 2 ^ (32 - s)

def md5K : List Nat :=
  [0xd76aa478, 0xe8c7b756, 0x242070db, 0xc1bdceee,
   0xf57c0faf, 0x4787c62a, 0xa8304613, 0xfd469501,
   0x698098d8, 0x8b44f7af, 0xffff5bb1, 0x895cd7be,
   0x6b901122, 0xfd987193, 0xa679438e, 0x49b40821,
   0xf61e2562, 0xc040b340, 0x265e5a51, 0xe9b6c7aa,
   0xd62f105d, 0x02441453, 0xd8a1e681, 0xe7d3fbc8,
   0x21e1cde6, 0xc33707d6, 0xf4d50d87, 0x455a14ed,
   0xa9e3e905, 0xfcefa3f8, 0x676f02d9, 0x8d2a4c8a,
   0xfffa3942, 0x8771f681, 0x6d9d6122, 0xfde5380c,
   0xa4beea44, 0x4bdecfa9, 0xf6bb4b60, 0xbebfbc70,
   0x289b7ec6, 0xeaa127fa, 0xd4ef3085, 0x04881d05,
   0xd9d4d039, 0xe6db99e5, 0x1fa27cf8, 0xc4ac5665,
   0xf4292244, 0x432aff97, 0xab9423a7, 0xfc93a039,
   0x655b59c3, 0x8f0ccc92, 0xffeff47d, 0x85845dd1,
   0x6fa87e4f, 0xfe2ce6e0, 0xa3014314, 0x4e0811a1,
   0xf7537e82, 0xbd3af235, 0x2ad7d2bb, 0xeb86d391]

def md5S : List Nat :=
  [7, 12, 17, 22, 7, 12, 17, 22, 7, 12, 17, 22, 7, 12, 17, 22,
   5, 9, 14, 20, 5, 9, 14, 20, 5, 9, 14, 20, 5, 9, 14, 20,
   4, 11, 16, 23, 4, 11, 16, 23, 4, 11, 16, 23, 4, 11, 16, 23,
   6, 10, 15, 21, 6, 10, 15, 21, 6, 10, 15, 21, 6, 10, 15, 21]

def md5F (b c d : Nat) : Nat := (b &&& c) ||| ((4294967295 - b) &&& d)
def md5G (b c d : Nat) : Nat := (b &&& d) ||| (c &&& (4294967295 - d))
def md5H (b c d : Nat) : Nat := b ^^^ c ^^^ d
def md5I (b c d : Nat) : Nat := c ^^^ (b ||| (4294967295 - d))

def md5Step (M : List Nat) (st : Nat × Nat × Nat × Nat) (i : Nat) :
    Nat × Nat × Nat × Nat :=
  let (a, b, c, d) := st
  let fg : Nat × Nat :=
    if i < 16 then (md5F b c d, i)
    else if i < 32 then (md5G b c d, (5 * i + 1) % 16)
    else if i < 48 then (md5H b c d, (3 * i + 5) % 16)
    else (md5I b c d, (7 * i) % 16)
  let x := u32 (a + fg.1 + md5K.getD i 0 + M.getD fg.2 0)
  (d, u32 (b + rotl32 x (md5S.getD i 0)), b, c)

def md5Block (st0 : Nat × Nat × Nat × Nat) (block : List Nat) :
    Nat × Nat × Nat × Nat :=
  let M := (List.range 16).map fun j =>
    block.getD (4 * j) 0 + 256 * block.getD (4 * j + 1) 0 +
    65536 * block.getD (4 * j + 2) 0 + 16777216 * block.getD (4 * j + 3) 0
  let r := (List.range 64).foldl (md5Step M) st0
  (u32 (st0.1 + r.1), u32 (st0.2.1 + r.2.1), u32 (st0.2.2.1 + r.2.2.1),
   u32 (st0.2.2.2 + r.2.2.2))

/-- Split a byte list into 64-byte blocks (accumulator holds the current
block reversed; `n` is its length). -/
def toBlocksAux (cur : List Nat) (n : Nat) : List Nat → List (List Nat)
  | [] => if cur.isEmpty then [] else [cur.reverse]
  | b :: t =>
    if n = 63 then (b :: cur).reverse :: toBlocksAux [] 0 t
    else toBlocksAux (b :: cur) (n + 1) t

def toBlocks (l : List Nat) : List (List Nat) := toBlocksAux [] 0 l

/-- MD5 digest (16 bytes) of a byte string. -/
def md5Bytes (msg : List Nat) : List Nat :=
  let len := msg.length
  let padZeros := (56 + 64 - (len + 1) % 64) % 64
  let bitLen := (8 * len) % 2 ^ 64
  let lenBytes := (List.range 8).map fun j => bitLen / 256 ^ j % 256
  let padded := msg ++ 128 :: List.replicate padZeros 0 ++ lenBytes
  let d := (toBlocks padded).foldl md5Block
    (0x67452301, 0xefcdab89, 0x98badcfe, 0x10325476)
  [d.1, d.2.1, d.2.2.1, d.2.2.2].flatMap fun w =>
    (List.range 4).map fun j => w / 256 ^ j % 256

def hexDigit (n : Nat) : Char := ("0123456789abcdef".data.getD n '0')

/-- UTF-8 encoding of one character (Python `str.encode()`). -/
def utf8Char (c : Char) : List Nat :=
  let n := c.toNat
  if n < 128 then [n]
  else if n < 2048 then [192 + n / 64, 128 + n % 64]
  else if n < 65536 then [224 + n / 4096, 128 + n / 64 % 64, 128 + n % 64]
  else [240 + n / 262144, 128 + n / 4096 % 64, 128 + n / 64 % 64, 128 + n % 64]

def utf8Encode (s : String) : List Nat := s.data.flatMap utf8Char

/-- `hashlib.md5(s.encode()).hexdigest()`. -/
def md5Hex (s : String) : String :=
  ⟨(md5Bytes (utf8Encode s)).flatMap fun b => [hexDigit (b / 16), hexDigit (b % 16)]⟩

/-- The relative-path sanitizer of `_generate_cache_filename`:
`replace("/", "_").replace("\\", "_").replace(".", "_")`. -/
def sanitizeRelPath (rp : String) : String :=
  pyReplaceChar '.' '_' (pyReplaceChar '\\' '_' (pyReplaceChar '/' '_' rp))

/-- `BaseAnalyzer._generate_cache_filename`
(`csd_plugin_sdk/base/input.py`, lines 166–173); `name` is the analyzer's
`self.name` (`"python"` or `"rust"`). -/
def generate_cache_filename (name : String) (input : PluginInput) : String :=
  let content_hash : String := ⟨(md5Hex (input.file_path ++ input.content)).data.take 16⟩
  let clean_path := sanitizeRelPath input.relative_path
  name ++ "_" ++ clean_path ++ "_" ++ content_hash ++ ".json"

/-! ## A generic non-overlapping scanner (regex `findall`)

`scanAll att l 0` runs the single-position matcher `att` at every position of
`l` from the left; on a match it records the capture and resumes after the
matched text (Python `re.findall` semantics for the deterministic patterns
used by the analyzers).  The `skip` argument counts characters of a found
match still to be stepped over. -/

def scanAll (att : List Char → Option (α × Nat)) : List Char → Nat → List α
  | [], _ => []
  | _ :: t, s + 1 => scanAll att t s
  | l@(_ :: t), 0 =>
    match att l with
    | some (a, len) => a :: scanAll att t (len - 1)
    | none => scanAll att t 0

/-! ## Python AST

The subset of CPython `ast` node shapes inspected by `python_analyzer.py`.
Function parameter lists are modelled as their identifier lists (the
analyzer only reads `arg.arg` names; default-value expressions are not
modelled).  `end_lineno` is optional as in CPython; the analyzer reads it as
`node.end_lineno or node.lineno`. -/

inductive PyConst where
  | str : String → PyConst
  | int : Int → PyConst
  | bool : Bool → PyConst
  | null : PyConst
deriving DecidableEq, Repr

mutual
inductive PyNode where
  | module (body : PyNodes)
  | functionDef (nm : String) (args : List String) (body : PyNodes)
      (decorator_list : PyNodes) (lineno : Nat) (end_lineno : Option Nat)
  | asyncFunctionDef (nm : String) (args : List String) (body : PyNodes)
      (decorator_list : PyNodes) (lineno : Nat) (end_lineno : Option Nat)
  | classDef (nm : String) (bases : PyNodes) (body : PyNodes)
      (decorator_list : PyNodes) (lineno : Nat) (end_lineno : Option Nat)
  | assign (targets : PyNodes) (value : PyNode) (lineno : Nat)
  | annAssign (target : PyNode) ( annotation : PyNode) (value : PyOpt)
      (lineno : Nat)
  | ifStmt (test : PyNode) (body : PyNodes) (orelse : PyNodes)
  | compare (left : PyNode) (comparators : PyNodes)
  | name (id : String)
  | constant (value : PyConst)
  | attribute (value : PyNode) (attr : String)
  | call (func : PyNode) (args : PyNodes)
  | exprStmt (value : PyNode)
  | importStmt (names : List (String × Option String)) (lineno : Nat)
  | importFrom (module : Option String) (names : List (String × Option String))
      (lineno : Nat)
  | pass

/-- Sequences of AST nodes (a separate type so that recursion over the tree
is plainly structural). -/
inductive PyNodes where
  | nil
  | cons (hd : PyNode) (tl : PyNodes)

/-- An optional AST node. -/
inductive PyOpt where
  | none
  | some (n : PyNode)
end

def PyNodes.toList : PyNodes → List PyNode
  | .nil => []
  | .cons h t => h :: t.toList

def PyNodes.ofList : List PyNode → PyNodes
  | [] => .nil
  | h :: t => .cons h (PyNodes.ofList t)

def PyOpt.toList : PyOpt → List PyNode
  | .none => []
  | .some n => [n]

mutual
/-- Node count of a subtree (the walk fuel). -/
def pySize : PyNode → Nat
  | .module body => 1 + pySizes body
  | .functionDef _ _ body decs _ _ => 1 + pySizes body + pySizes decs
  | .asyncFunctionDef _ _ body decs _ _ => 1 + pySizes body + pySizes decs
  | .classDef _ bases body decs _ _ =>
      1 + pySizes bases + pySizes body + pySizes decs
  | .assign targets value _ => 1 + pySizes targets + pySize value
  | .annAssign target ann value _ =>
      1 + pySize target + pySize ann + pySizeOpt value
  | .ifStmt test body orelse => 1 + pySize test + pySizes body + pySizes orelse
  | .compare left comps => 1 + pySize left + pySizes comps
  | .attribute value _ => 1 + pySize value
  | .call f args => 1 + pySize f + pySizes args
  | .exprStmt v => 1 + pySize v
  | _ => 1

def pySizes : PyNodes → Nat
  | .nil => 0
  | .cons n t => pySize n + pySizes t

def pySizeOpt : PyOpt → Nat
  | .none => 0
  | .some n => pySize n
end

/-- `ast.iter_child_nodes`, in CPython field order for the modelled fields. -/
def pyChildren : PyNode → List PyNode
  | .module body => body.toList
  | .functionDef _ _ body decs _ _ => body.toList ++ decs.toList
  | .asyncFunctionDef _ _ body decs _ _ => body.toList ++ decs.toList
  | .classDef _ bases body decs _ _ => bases.toList ++ body.toList ++ decs.toList
  | .assign targets value _ => targets.toList ++ [value]
  | .annAssign target ann value _ => [target, ann] ++ value.toList
  | .ifStmt test body orelse => test :: body.toList ++ orelse.toList
  | .compare left comps => left :: comps.toList
  | .attribute value _ => [value]
  | .call f args => f :: args.toList
  | .exprStmt v => [v]
  | _ => []

/-- `ast.walk`: breadth-first traversal via a queue, as in CPython.  The fuel
(the root's node count) only serves structural termination: the queue drains
before it runs out, so the traversal is complete. -/
def pyWalkAux : Nat → List PyNode → List PyNode
  | 0, _ => []
  | _ + 1, [] => []
  | fuel + 1, n :: q => n :: pyWalkAux fuel (q ++ pyChildren n)

def pyWalk (n : PyNode) : List PyNode := pyWalkAux (pySize n) [n]

/-! ### `ast.get_docstring` and `inspect.cleandoc` -/

/-- Python `str.expandtabs()` (tab stops every 8 columns, column resets at
newline and carriage return). -/
def expandTabsAux : List Char → Nat → List Char
  | [], _ => []
  | c :: t, col =>
    if c = '\t' then
      let k := 8 - col % 8
      List.replicate k ' ' ++ expandTabsAux t (col + k)
    else if c = '\n' || c = '\r' then c :: expandTabsAux t 0
    else c :: expandTabsAux t (col + 1)

/-- `inspect.cleandoc`. -/
def cleandoc (doc : String) : String :=
  let ls := pySplitNl ⟨expandTabsAux doc.data 0⟩
  let margin : Option Nat := (ls.drop 1).foldl
    (fun m line =>
      let content := (pyLStrip line).length
      if content ≠ 0 then
        let indent := line.length - content
        some (match m with | some v => min v indent | none => indent)
      else m)
    none
  let ls := match ls with
    | [] => []
    | h :: t =>
      pyLStrip h ::
        (match margin with
         | none => t
         | some mg => t.map fun (l : String) => (⟨l.data.drop mg⟩ : String))
  let ls := (ls.reverse.dropWhile (· = "")).reverse
  let ls := ls.dropWhile (· = "")
  pyJoin "\n" ls

/-- `ast.get_docstring(node)` for a node with the given `body`: the first
statement must be a bare string-literal expression; the text is cleaned with
`inspect.cleandoc`. -/
def pyGetDocstring : PyNodes → Option String
  | .cons (.exprStmt (.constant (.str s))) _ => some (cleandoc s)
  | _ => none

/-! ### `PythonAnalyzer` helpers -/

/-- `PythonAnalyzer._get_name_from_node`.  Mirrors the Python truthiness
test `f"{value}.{attr}" if value else node.attr`. -/
def getNameFromNode : PyNode → Option String
  | .name id => some id
  | .attribute v attr =>
    match getNameFromNode v with
    | some s => if s = "" then some attr else some (s ++ "." ++ attr)
    | none => some attr
  | .call f _ => getNameFromNode f
  | .constant (.str s) => some s
  | _ => none

/-- `PythonAnalyzer._get_decorator_name`: `_get_name_from_node(d) or "unknown"`. -/
def getDecoratorName (d : PyNode) : String :=
  match getNameFromNode d with
  | some s => if s = "" then "unknown" else s
  | none => "unknown"

/-- Models `list(set(xs))`: CPython's set iteration order is unspecified;
only membership and duplicate-freedom are relied upon downstream. -/
def pyListSet (xs : List String) : List String := xs.dedup

/-- `PythonAnalyzer._extract_function_calls`: every `Call` in the subtree
whose target name resolves truthy, deduplicated. -/
def extractFunctionCalls (node : PyNode) : List String :=
  pyListSet ((pyWalk node).filterMap fun child =>
    match child with
    | .call f _ =>
      match getNameFromNode f with
      | some s => if s = "" then none else some s
      | none => none
    | _ => none)

/-- Element-source slice `content.split("\n")[lineno - 1 : end]` joined back. -/
def elementSlice (content : String) (lineno endl : Nat) : String :=
  pyJoin "\n" (pySlice (lineno - 1) endl (pySplitNl content))

/-- Shared docstring/token logic of `_extract_docstring_and_tokens`:
`estimate_tokens(docstring) if docstring else 0`. -/
def docstringTokens : Option String → Nat
  | some s => if s = "" then 0 else estimate_tokens s
  | none => 0

/-- `PythonAnalyzer._create_function_element`. -/
def createFunctionElement (content : String) (node : PyNode) (nm : String)
    (args : List String) (body : PyNodes) (decs : PyNodes)
    (lineno : Nat) (end_lineno : Option Nat) (isAsync : Bool) : CodeElement :=
  let endl := end_lineno.getD lineno
  let signature :=
    (if isAsync then "async def " else "def ") ++ nm ++ "(" ++
      pyJoin ", " args ++ ")"
  let calls := extractFunctionCalls node
  let complexity := calculate_complexity content lineno endl
  let decorators := decs.toList.map getDecoratorName
  let docstring := pyGetDocstring body
  let element_tokens := estimate_code_tokens (elementSlice content lineno endl)
  { element_type := "function"
    name := nm
    signature := some signature
    line_start := lineno
    line_end := endl
    summary := docstring
    complexity_score := some complexity
    calls := calls
    tokens := some element_tokens
    metadata :=
      [("is_async", .b isAsync), ("decorators", .ls decorators),
       ("arg_count", .n args.length), ("has_docstring", .b docstring.isSome),
       ("docstring_tokens", .n (docstringTokens docstring))] }

/-- `", ".join(xs)` over optional strings: `none` on a `None` entry, modelling
the `TypeError` CPython raises inside `join`. -/
def pyJoinOpt (xs : List (Option String)) : Option String :=
  if xs.all Option.isSome then some (pyJoin ", " (xs.map (·.getD ""))) else none

/-- `PythonAnalyzer._create_class_element`.  `none` models the `TypeError`
raised when a base-class expression has no resolvable name. -/
def createClassElement (content : String) (nm : String) (bases : PyNodes)
    (body : PyNodes) (decs : PyNodes) (lineno : Nat)
    (end_lineno : Option Nat) : Option CodeElement :=
  let endl := end_lineno.getD lineno
  let baseNames := bases.toList.map getNameFromNode
  match pyJoinOpt baseNames with
  | none => none
  | some joined =>
    let signature :=
      if bases.toList.isEmpty then "class " ++ nm
      else "class " ++ nm ++ "(" ++ joined ++ ")"
    let methods := body.toList.filterMap fun item =>
      match item with
      | .functionDef mnm _ _ _ _ _ => some mnm
      | .asyncFunctionDef mnm _ _ _ _ _ => some mnm
      | _ => none
    let decorators := decs.toList.map getDecoratorName
    let docstring := pyGetDocstring body
    let element_tokens := estimate_code_tokens (elementSlice content lineno endl)
    some
      { element_type := "class"
        name := nm
        signature := some signature
        line_start := lineno
        line_end := endl
        summary := docstring
        calls := methods
        tokens := some element_tokens
        metadata :=
          [("base_classes", .ls (baseNames.map (·.getD ""))),
           ("methods", .ls methods), ("decorators", .ls decorators),
           ("has_docstring", .b docstring.isSome),
           ("docstring_tokens", .n (docstringTokens docstring))] }

/-- Python `str.isupper()` (ASCII): at least one cased character, no
lowercase character. -/
def pyIsUpperStr (s : String) : Bool :=
  (s.data.any fun c => ('A' ≤ c && c ≤ 'Z') || ('a' ≤ c && c ≤ 'z')) &&
  (s.data.all fun c => !('a' ≤ c && c ≤ 'z'))

/-- `PythonAnalyzer._create_variable_element`. -/
def createVariableElement (content : String) : PyNode → Option CodeElement
  | .assign targets _ lineno =>
    match targets with
    | .cons (.name var) .nil =>
      let line_content := (pySplitNl content).getD (lineno - 1) ""
      let tokens := estimate_code_tokens line_content
      if !pyStartsWith var "_" && pyIsUpperStr var then
        some
          { element_type := "variable", name := var, line_start := lineno,
            line_end := lineno, tokens := some tokens,
            metadata := [("is_constant", .b true)] }
      else none
    | _ => none
  | .annAssign (.name var) _ _ lineno =>
    let line_content := (pySplitNl content).getD (lineno - 1) ""
    let tokens := estimate_code_tokens line_content
    if !pyStartsWith var "_" then
      some
        { element_type := "variable", name := var, line_start := lineno,
          line_end := lineno, tokens := some tokens,
          metadata := [("has_type_annotation", .b true)] }
    else none
  | _ => none

/-- Per-node dispatch of `PythonAnalyzer._extract_elements`.
`Except.error` models a propagating exception, `.ok none` a node that yields
no element. -/
def createElementFor (content : String) : PyNode → Except String (Option CodeElement)
  | n@(.functionDef nm args body decs l e) =>
    .ok (some (createFunctionElement content n nm args body decs l e false))
  | n@(.asyncFunctionDef nm args body decs l e) =>
    .ok (some (createFunctionElement content n nm args body decs l e true))
  | .classDef nm bases body decs l e =>
    match createClassElement content nm bases body decs l e with
    | some el => .ok (some el)
    | none => .error "TypeError: sequence item: expected str instance, NoneType found"
  | n@(.assign _ _ _) => .ok (createVariableElement content n)
  | n@(.annAssign _ _ _ _) => .ok (createVariableElement content n)
  | _ => .ok none

/-- Collect per-node results, propagating the first exception. -/
def collectElements : List (Except String (Option CodeElement)) →
    Except String (List CodeElement)
  | [] => .ok []
  | .error e :: _ => .error e
  | .ok none :: t => collectElements t
  | .ok (some el) :: t => (collectElements t).map (el :: ·)

/-- `PythonAnalyzer._extract_elements`. -/
def pyExtractElements (tree : PyNode) (content : String) :
    Except String (List CodeElement) :=
  collectElements ((pyWalk tree).map (createElementFor content))

/-- `PythonAnalyzer._extract_imports` (`fs` models `Path.exists`). -/
def pyExtractImports (fs : String → Bool) (tree : PyNode) (input : PluginInput) :
    List Import :=
  (pyWalk tree).flatMap fun node =>
    match node with
    | .importStmt names lineno =>
      names.map fun (nm, asn) =>
        { module := nm, «alias» := asn, line_number := lineno,
          import_type := detect_import_type fs nm input.project_root input.file_path }
    | .importFrom module names lineno =>
      let module_name := module.getD ""
      [{ module := module_name, items := names.map (·.1), line_number := lineno,
         import_type :=
           detect_import_type fs module_name input.project_root input.file_path }]
    | _ => []

/-- `PythonAnalyzer._extract_exports`: public module-level definitions. -/
def pyExtractExports (tree : PyNode) : List String :=
  let body := match tree with | .module b => b.toList | _ => []
  body.flatMap fun node =>
    match node with
    | .functionDef nm _ _ _ _ _ => if pyStartsWith nm "_" then [] else [nm]
    | .asyncFunctionDef nm _ _ _ _ _ => if pyStartsWith nm "_" then [] else [nm]
    | .classDef nm _ _ _ _ _ => if pyStartsWith nm "_" then [] else [nm]
    | .assign targets _ _ =>
      targets.toList.filterMap fun t =>
        match t with
        | .name id => if pyStartsWith id "_" then none else some id
        | _ => none
    | _ => []

/-- `PythonAnalyzer._resolve_import_path`. -/
def resolveImportPath (fs : String → Bool) (module_name : String)
    (input : PluginInput) : Option String :=
  let project_root := input.project_root
  let current_dir := pyPathParent input.file_path
  let module_path := pyReplaceChar '.' '/' module_name
  let potential_paths :=
    [pyPathJoin project_root (module_path ++ ".py"),
     pyPathJoin project_root (module_path ++ "/__init__.py"),
     pyPathJoin current_dir (module_path ++ ".py"),
     pyPathJoin current_dir (module_path ++ "/__init__.py")]
  (potential_paths.find? fs).map fun path =>
    match pyRelativeTo path project_root with
    | some rel => rel
    | none => path

/-- `PythonAnalyzer._extract_relationships`. -/
def pyExtractRelationships (fs : String → Bool) (imports : List Import)
    (input : PluginInput) : List Relationship :=
  imports.filterMap fun imp =>
    if imp.import_type = "local" then
      (resolveImportPath fs imp.module input).map fun target_file =>
        { from_file := input.relative_path, to_file := target_file,
          relationship_type := "import", details := "import " ++ imp.module,
          line_number := some imp.line_number, strength := 0.8 }
    else none

/-- `PythonAnalyzer._calculate_token_info`. -/
def pyCalculateTokenInfo (content : String) (elements : List CodeElement) :
    TokenInfo :=
  let total_tokens : Nat := estimate_code_tokens content
  let doc_tokens : Nat := (elements.map fun e =>
    match e.summary with
    | some s => if s = "" then 0 else estimate_tokens s
    | none => 0).sum
  let comment_tokens : Nat := ((pySplitNl content).map fun line =>
    let stripped := pyStrip line
    if pyStartsWith stripped "#" && !pyStartsWith stripped "#!" then
      estimate_tokens ⟨stripped.data.drop 1⟩
    else 0).sum
  let code_tokens : Nat :=
    (max 0 ((total_tokens : Int) - (doc_tokens : Int) - (comment_tokens : Int))).toNat
  { total_tokens := total_tokens, code_tokens := code_tokens,
    documentation_tokens := doc_tokens, comment_tokens := comment_tokens }

/-- `PythonAnalyzer._check_for_main_entry`. -/
def pyCheckForMainEntry (tree : PyNode) : Bool :=
  (pyWalk tree).any fun node =>
    match node with
    | .ifStmt (.compare (.name id) comps) _ _ =>
      id = "__name__" &&
        (match comps with
         | .cons (.constant (.str v)) .nil => v = "__main__"
         | _ => false)
    | _ => false

/-- `ast.get_docstring(tree)` for the module node. -/
def pyModuleDocstring (tree : PyNode) : Option String :=
  match tree with
  | .module body => pyGetDocstring body
  | _ => none

/-- `PythonAnalyzer._analyze_python_code`.  `parse` models `ast.parse`; an
`Except.error` is a `SyntaxError` with its rendered message.  The result is
`.error` when an exception propagates out of element extraction. -/
def analyzePythonCode (parse : String → Except String PyNode)
    (fs : String → Bool) (input : PluginInput) : Except String PluginOutput :=
  match parse input.content with
  | .error e =>
    .ok
      { file_path := input.file_path, file_hash := "", elements := [],
        imports := [], exports := [], relationships := [],
        external_dependencies := [],
        file_summary := some ("Syntax error in Python file: " ++ e),
        token_info := some
          { total_tokens := estimate_tokens input.content, code_tokens := 0,
            documentation_tokens := 0, comment_tokens := 0 } }
  | .ok tree =>
    match pyExtractElements tree input.content with
    | .error e => .error e
    | .ok elements =>
      let imports := pyExtractImports fs tree input
      let exports := pyExtractExports tree
      let relationships := pyExtractRelationships fs imports input
      let token_info := pyCalculateTokenInfo input.content elements
      let has_main_check := pyCheckForMainEntry tree
      .ok
        { file_path := input.file_path, file_hash := "", elements := elements,
          imports := imports, exports := exports,
          relationships := relationships, external_dependencies := [],
          token_info := some token_info,
          metadata :=
            [("has_main_check", .b has_main_check),
             ("module_docstring", .os (pyModuleDocstring tree))] }

/-! ### Python ecosystem manifest parsers -/

/-- The per-line body of `PythonAnalyzer._analyze_requirements_txt`
(lines 540–570): skip blank and comment lines; split on the first `==`
(keeping the version), or before a `>=`/`<=` (discarding it); strip a
bracketed extras suffix from the name. -/
def requirementsLineDep (relative_path rawLine : String) :
    Option ExternalDependency :=
  let line := pyStrip rawLine
  if line = "" || pyStartsWith line "#" then none
  else
    let nv : String × Option String :=
      if pyIn "==" line then
        match pySplitOnce "==" line with
        | some (n, v) => (pyStrip n, some (pyStrip v))
        | none => (line, none)
      else if pyIn ">=" line then (pyStrip (beforeFirst ">=" line), none)
      else if pyIn "<=" line then (pyStrip (beforeFirst "<=" line), none)
      else (pyStrip line, none)
    let nm := if pyIn "[" nv.1 then beforeFirst "[" nv.1 else nv.1
    some
      { name := nm, version := nv.2, ecosystem := "pip",
        dependency_type := "runtime", source_file := relative_path
        : ExternalDependency }

/-- `PythonAnalyzer._analyze_requirements_txt` (lines 535–587). -/
def analyzeRequirementsTxt (input : PluginInput) : PluginOutput :=
  let content_tokens := estimate_tokens input.content
  let dependencies :=
    (pySplitNl input.content).filterMap (requirementsLineDep input.relative_path)
  { file_path := input.file_path, file_hash := "", elements := [],
    imports := [], exports := [], relationships := [],
    external_dependencies := dependencies,
    file_summary := some
      ("Python requirements with " ++ toString dependencies.length ++
        " dependencies"),
    token_info := some
      { total_tokens := content_tokens, code_tokens := content_tokens,
        documentation_tokens := 0, comment_tokens := 0 } }

/-- One-position matcher for `re.findall(key ++ "\s*=\s*\[(.*?)\]", content,
re.DOTALL)`: at the scan position, the key, optional whitespace, `=`,
optional whitespace, `[`, then a lazily captured body up to the first `]`.
Returns the capture and the total matched length. -/
def tryBracketListAt (key : List Char) (l : List Char) : Option (String × Nat) :=
  if key.isPrefixOf l then
    let r1 := (l.drop key.length).dropWhile pyIsSpace
    match r1 with
    | '=' :: r2 =>
      let r3 := r2.dropWhile pyIsSpace
      match r3 with
      | '[' :: r4 =>
        let cap := r4.takeWhile (· ≠ ']')
        if cap.length < r4.length then
          some (⟨cap⟩, l.length - (r4.length - cap.length - 1))
        else none
      | _ => none
    | _ => none
  else none

/-- One-position matcher for `re.findall("[\"']([^\"']+)[\"']", s)`: a quote
of either kind, one or more non-quote characters, a closing quote of either
kind. -/
def tryQuotedAt (l : List Char) : Option (String × Nat) :=
  match l with
  | c :: t =>
    if c = '"' || c = '\'' then
      let cap := t.takeWhile fun d => d ≠ '"' && d ≠ '\''
      if cap.length ≠ 0 && cap.length < t.length then
        some (⟨cap⟩, cap.length + 2)
      else none
    else none
  | [] => none

/-- `PythonAnalyzer._extract_setup_dependencies` (lines 599–630). -/
def extractSetupDependencies (content : String) : List ExternalDependency :=
  let patterns := ["install_requires", "requires"]
  patterns.flatMap fun key =>
    let found := scanAll (tryBracketListAt key.data) content.data 0
    found.flatMap fun m =>
      let deps := scanAll tryQuotedAt m.data 0
      deps.map fun dep =>
        let nm :=
          if pyIn ">=" dep then pyStrip (beforeFirst ">=" dep)
          else if pyIn "==" dep then pyStrip (beforeFirst "==" dep)
          else pyStrip dep
        { name := nm, ecosystem := "pip", dependency_type := "runtime",
          source_file := "setup.py" : ExternalDependency }

/-- `PythonAnalyzer._analyze_setup_py` (lines 589–597): full code analysis,
extended with regex-scanned dependency lists and an overwritten summary. -/
def analyzeSetupPy (parse : String → Except String PyNode)
    (fs : String → Bool) (input : PluginInput) : Except String PluginOutput :=
  match analyzePythonCode parse fs input with
  | .error e => .error e
  | .ok result =>
    let dependencies := extractSetupDependencies input.content
    .ok
      { result with
        external_dependencies := result.external_dependencies ++ dependencies,
        file_summary := some
          ("Python setup file with " ++ toString dependencies.length ++
            " dependencies") }

/-- Python `str.strip(chars)`: remove leading and trailing characters drawn
from `chars`. -/
def pyStripChars (chars : List Char) (s : String) : String :=
  ⟨((s.data.dropWhile (chars.contains ·)).reverse.dropWhile
      (chars.contains ·)).reverse⟩

/-- `PythonAnalyzer._analyze_pyproject_toml` (lines 632–681): a line-oriented
state machine over the `[tool.poetry.dependencies]` / `[project.dependencies]`
sections. -/
def analyzePyprojectToml (input : PluginInput) : PluginOutput :=
  let content_tokens := estimate_tokens input.content
  let step := fun (st : Bool × List ExternalDependency) (rawLine : String) =>
    let line := pyStrip rawLine
    let in_dependencies := st.1
    if pyIn "[tool.poetry.dependencies]" line ||
        pyIn "[project.dependencies]" line then (true, st.2)
    else if pyStartsWith line "[" && in_dependencies then (false, st.2)
    else if in_dependencies && pyIn "=" line && !pyStartsWith line "#" then
      match pySplitOnce "=" line with
      | some (rawName, _) =>
        let nm := pyStripChars ['"', '\''] (pyStrip rawName)
        if nm ≠ "python" then
          (in_dependencies,
           st.2 ++
             [{ name := nm, ecosystem := "pip", dependency_type := "runtime",
                source_file := input.relative_path : ExternalDependency }])
        else (in_dependencies, st.2)
      | none => (in_dependencies, st.2)
    else (in_dependencies, st.2)
  let dependencies := ((pySplitNl input.content).foldl step (false, [])).2
  { file_path := input.file_path, file_hash := "", elements := [],
    imports := [], exports := [], relationships := [],
    external_dependencies := dependencies,
    file_summary := some
      ("Python project config with " ++ toString dependencies.length ++
        " dependencies"),
    token_info := some
      { total_tokens := content_tokens, code_tokens := content_tokens,
        documentation_tokens := 0, comment_tokens := 0 } }

/-! ### `PythonAnalyzer` probe and dispatch -/

def python_supported_extensions : List String := [".py"]

def python_supported_filenames : List String :=
  ["requirements.txt", "setup.py", "pyproject.toml", "Pipfile", "poetry.lock",
   "tox.ini", "pytest.ini", ".flake8", ".pylintrc"]

def python_indicators : List String :=
  ["def ", "class ", "import ", "from ", "__name__"]

/-- `PythonAnalyzer.can_analyze` (lines 78–103). -/
def pythonCanAnalyze (file_path content_preview : String) : Bool × ℚ :=
  if python_supported_extensions.contains (pyPathSuffix file_path) then
    (true, 1.0)
  else if (python_supported_filenames.map pyLower).contains
      (pyLower (pyPathName file_path)) then (true, 0.9)
  else if pyStartsWith content_preview "#!/usr/bin/env python" ||
      pyStartsWith content_preview "#!/usr/bin/python" then (true, 0.8)
  else
    let indicator_count :=
      (python_indicators.filter fun ind => pyIn ind content_preview).length
    if indicator_count ≥ 2 then (true, 0.7)
    else if indicator_count ≥ 1 then (true, 0.5)
    else (false, 0.0)

/-- `PythonAnalyzer.analyze` (lines 105–118): dispatch by suffix and
lower-cased filename. -/
def pythonAnalyze (parse : String → Except String PyNode)
    (fs : String → Bool) (input : PluginInput) : Except String PluginOutput :=
  let p := input.file_path
  if pyPathSuffix p = ".py" then analyzePythonCode parse fs input
  else if pyLower (pyPathName p) = "requirements.txt" then
    .ok (analyzeRequirementsTxt input)
  else if pyLower (pyPathName p) = "setup.py" then analyzeSetupPy parse fs input
  else if pyLower (pyPathName p) = "pyproject.toml" then
    .ok (analyzePyprojectToml input)
  else analyzePythonCode parse fs input

/-! ## Heuristic Rust engine (`rust_analyzer.py`)

The regular expressions of the analyzer are compiled by hand into
deterministic scanners.  Each pattern is of the backtracking-free shape
`literal / \s* / \s+ / \w+ / [^X]*` in which the character classes of
adjacent pieces are disjoint, so greedy matching is exact. -/

/-- Strip trailing characters drawn from `chars` (Python `str.rstrip(chars)`). -/
def pyRStripChars (chars : List Char) (s : String) : String :=
  ⟨(s.data.reverse.dropWhile (chars.contains ·)).reverse⟩

/-- Python `s.split(sep)` for a multi-character separator (every occurrence,
left to right, non-overlapping).  `skip` counts separator characters being
stepped over; `cur` is the current piece, reversed. -/
def splitSubAux (sep : List Char) : List Char → Nat → List Char → List (List Char)
  | [], _, cur => [cur.reverse]
  | _ :: t, s + 1, cur => splitSubAux sep t s cur
  | l@(c :: t), 0, cur =>
    if sep.isPrefixOf l then cur.reverse :: splitSubAux sep t (sep.length - 1) []
    else splitSubAux sep t 0 (c :: cur)

def pySplitSub (sep s : String) : List String :=
  (splitSubAux sep.data s.data 0 []).map List.asString

/-- After an optional group `(word\s+)?`: if `w` followed by at least one
whitespace character is present, consume it and the whitespace run. -/
def dropOptWordSp (w : List Char) (l : List Char) : List Char :=
  if w.isPrefixOf l then
    match l.drop w.length with
    | c :: rest => if pyIsSpace c then rest.dropWhile pyIsSpace else l
    | [] => l
  else l

/-- Tail matcher `KW\s+(\w+)` at the current position: the keyword, at least
one whitespace character, then the captured identifier. -/
def matchKwName (kw : List Char) (l : List Char) : Option String :=
  if kw.isPrefixOf l then
    match l.drop kw.length with
    | c :: rest =>
      if pyIsSpace c then
        let nm := (rest.dropWhile pyIsSpace).takeWhile isWordChar
        if nm.length ≠ 0 then some ⟨nm⟩ else none
      else none
    | [] => none
  else none

/-- `re.match("^\s*(pub\s+)?KW\s+(\w+)", line)`, returning the last capture
group (the identifier). -/
def matchKeywordDecl (kw : String) (line : String) : Option String :=
  let r0 := line.data.dropWhile pyIsSpace
  matchKwName kw.data (dropOptWordSp "pub".data r0)

/-- `re.match("^\s*(pub\s+)?(async\s+)?fn\s+(\w+)", line)`. -/
def matchFnAsyncDecl (line : String) : Option String :=
  let r0 := line.data.dropWhile pyIsSpace
  matchKwName "fn".data (dropOptWordSp "async".data (dropOptWordSp "pub".data r0))

/-- The `function` pattern pair, first match wins. -/
def matchFunctionDecl (line : String) : Option String :=
  (matchKeywordDecl "fn" line).orElse fun _ => matchFnAsyncDecl line

/-- Tail of the `impl` patterns after `impl(?:\s*<[^>]*>)?`: returns the
position after an optional generic parameter list, falling back to the
no-generics reading when the bracketed group cannot complete. -/
def implAfterGenerics (r1 : List Char) : Option (List Char) :=
  let rg := r1.dropWhile pyIsSpace
  match rg with
  | '<' :: rt =>
    let body := rt.takeWhile (· ≠ '>')
    if body.length < rt.length then some (rt.drop (body.length + 1)) else none
  | _ => none

/-- `\s+(\w+)` at the current position. -/
def matchSpName (l : List Char) : Option String :=
  match l with
  | c :: rest =>
    if pyIsSpace c then
      let nm := (rest.dropWhile pyIsSpace).takeWhile isWordChar
      if nm.length ≠ 0 then some ⟨nm⟩ else none
    else none
  | [] => none

/-- `re.match("^\s*impl(?:\s*<[^>]*>)?\s+(\w+)", line)`. -/
def matchImplDecl1 (line : String) : Option String :=
  let r0 := line.data.dropWhile pyIsSpace
  if "impl".data.isPrefixOf r0 then
    let r1 := r0.drop 4
    match implAfterGenerics r1 with
    | some r2 => (matchSpName r2).orElse fun _ => matchSpName r1
    | none => matchSpName r1
  else none

/-- `\s+\w+\s+for\s+(\w+)` at the current position. -/
def matchForName (l : List Char) : Option String :=
  match l with
  | c :: rest =>
    if pyIsSpace c then
      let afterW := (rest.dropWhile pyIsSpace)
      let w := afterW.takeWhile isWordChar
      if w.length ≠ 0 then
        match afterW.drop w.length with
        | c2 :: rest2 =>
          if pyIsSpace c2 then
            let r3 := rest2.dropWhile pyIsSpace
            if "for".data.isPrefixOf r3 then
              matchSpName (r3.drop 3) |>.orElse fun _ => none
            else none
          else none
        | [] => none
      else none
    else none
  | [] => none

/-- `re.match("^\s*impl(?:\s*<[^>]*>)?\s+\w+\s+for\s+(\w+)", line)` (dead in
practice: the first `impl` pattern matches whenever this one does). -/
def matchImplDecl2 (line : String) : Option String :=
  let r0 := line.data.dropWhile pyIsSpace
  if "impl".data.isPrefixOf r0 then
    let r1 := r0.drop 4
    match implAfterGenerics r1 with
    | some r2 => (matchForName r2).orElse fun _ => matchForName r1
    | none => matchForName r1
  else none

def matchImplDecl (line : String) : Option String :=
  (matchImplDecl1 line).orElse fun _ => matchImplDecl2 line

/-- The ordered pattern table of `RustAnalyzer._extract_elements`
(lines 205–232), in dict insertion order. -/
def rust_element_patterns : List (String × (String → Option String)) :=
  [("function", matchFunctionDecl),
   ("struct", matchKeywordDecl "struct"),
   ("enum", matchKeywordDecl "enum"),
   ("trait", matchKeywordDecl "trait"),
   ("impl", matchImplDecl),
   ("module", matchKeywordDecl "mod"),
   ("type", matchKeywordDecl "type"),
   ("constant", matchKeywordDecl "const")]

/-- The brace-balance loop of `RustAnalyzer._find_element_end`: `i` is the
0-based index of the current line, `some r` the 1-based end line found. -/
def braceScanAux : List String → Nat → Int → Bool → Option Nat
  | [], _, _, _ => none
  | line :: rest, i, brace_count, in_element =>
    let open_braces := (line.data.filter (· = Char.ofNat 123)).length
    let close_braces := (line.data.filter (· = Char.ofNat 125)).length
    let in2 := if open_braces > 0 then true else in_element
    let bc2 := (if open_braces > 0 then brace_count + open_braces else brace_count)
      - close_braces
    if in2 && bc2 ≤ 0 then some (i + 1) else braceScanAux rest (i + 1) bc2 in2

/-- `RustAnalyzer._find_element_end` (lines 336–359); `start_line` is 0-based
and the result is a 1-based line number. -/
def findElementEnd (lines : List String) (start_line : Nat)
    (start_line_content : String) : Nat :=
  if pyEndsWith start_line_content ";" then start_line + 1
  else
    match braceScanAux (lines.drop start_line) start_line 0 false with
    | some r => r
    | none => min (start_line + 20) lines.length

/-- One-position matcher for `(\w+)\s*\(`. -/
def tryCallP1 (l : List Char) : Option (String × Nat) :=
  let w := l.takeWhile isWordChar
  if w.length ≠ 0 then
    let rest := l.drop w.length
    let sp := rest.takeWhile pyIsSpace
    match rest.drop sp.length with
    | '(' :: _ => some (⟨w⟩, w.length + sp.length + 1)
    | _ => none
  else none

/-- One-position matcher for `\.(\w+)\s*\(`. -/
def tryCallP2 (l : List Char) : Option (String × Nat) :=
  match l with
  | '.' :: t =>
    let w := t.takeWhile isWordChar
    if w.length ≠ 0 then
      let rest := t.drop w.length
      let sp := rest.takeWhile pyIsSpace
      match rest.drop sp.length with
      | '(' :: _ => some (⟨w⟩, 1 + w.length + sp.length + 1)
      | _ => none
    else none
  | _ => none

/-- One-position matcher for `(\w+)::\w+\s*\(`. -/
def tryCallP3 (l : List Char) : Option (String × Nat) :=
  let w := l.takeWhile isWordChar
  if w.length ≠ 0 then
    let r1 := l.drop w.length
    if "::".data.isPrefixOf r1 then
      let r2 := r1.drop 2
      let w2 := r2.takeWhile isWordChar
      if w2.length ≠ 0 then
        let rest := r2.drop w2.length
        let sp := rest.takeWhile pyIsSpace
        match rest.drop sp.length with
        | '(' :: _ => some (⟨w⟩, w.length + 2 + w2.length + sp.length + 1)
        | _ => none
      else none
    else none
  else none

def rust_call_keywords : List String :=
  ["if", "else", "while", "for", "match", "let", "mut", "return", "break",
   "continue"]

/-- `RustAnalyzer._extract_calls_in_range` (lines 361–396): the three call
patterns over `lines[start:min(end, len(lines))]`, collected into a set, then
filtered against the keyword stoplist and single-character names.
`List.dedup` models the set (iteration order unspecified in CPython). -/
def rustExtractCallsInRange (lines : List String) (start endIdx : Nat) :
    List String :=
  let raw := (pySlice start (min endIdx lines.length) lines).flatMap fun line =>
    scanAll tryCallP1 line.data 0 ++ scanAll tryCallP2 line.data 0 ++
      scanAll tryCallP3 line.data 0
  raw.dedup.filter fun c => !rust_call_keywords.contains c && c.length > 1

/-- `RustAnalyzer._extract_element_documentation` (lines 301–334): scan
backward from the declaration, collecting doc-comment lines, skipping
attributes, blanks and plain comments, stopping at other content. -/
def rustDocScan : List String → List String → List String
  | [], acc => acc
  | l :: rest, acc =>
    let line := pyStrip l
    if pyStartsWith line "///" then
      rustDocScan rest (pyStrip ⟨line.data.drop 3⟩ :: acc)
    else if pyStartsWith line "//!" then
      rustDocScan rest (pyStrip ⟨line.data.drop 3⟩ :: acc)
    else if pyStartsWith line "/**" && pyEndsWith line "*/" then
      let content := pyStrip ⟨(line.data.take (line.data.length - 2)).drop 3⟩
      if content ≠ "" then rustDocScan rest (content :: acc)
      else rustDocScan rest acc
    else if pyStartsWith line "#[" then rustDocScan rest acc
    else if line = "" || pyStartsWith line "//" then rustDocScan rest acc
    else acc

def rustExtractElementDoc (lines : List String) (element_line : Nat) :
    Option String :=
  let doc_lines := rustDocScan (lines.take element_line).reverse []
  if doc_lines.isEmpty then none else some (pyJoin "\n" doc_lines)

/-- Element construction for one matched declaration line of
`RustAnalyzer._extract_elements` (lines 234–299). -/
def rustBuildElement (content : String) (lines : List String) (line_num : Nat)
    (line line_stripped : String) (element_type nm : String) : CodeElement :=
  let end_line := findElementEnd lines (line_num - 1) line_stripped
  let complexity := calculate_complexity content line_num end_line
  let calls := rustExtractCallsInRange lines (line_num - 1) (end_line - 1)
  let is_public := pyIn "pub " line
  let is_async := pyIn "async " line && element_type = "function"
  let doc_comment := rustExtractElementDoc lines (line_num - 1)
  let element_tokens :=
    estimate_code_tokens (pyJoin "\n" (pySlice (line_num - 1) end_line lines))
  { element_type := element_type, name := nm, signature := some line_stripped,
    line_start := line_num, line_end := end_line, summary := doc_comment,
    complexity_score := some complexity, calls := calls,
    tokens := some element_tokens,
    metadata :=
      [("is_public", .b is_public),
       ("is_async", .b (if element_type = "function" then is_async else false)),
       ("visibility", .s (if is_public then "pub" else "private")),
       ("has_documentation", .b doc_comment.isSome),
       ("doc_tokens", .n (docstringTokens doc_comment))] }

/-- `RustAnalyzer._extract_elements`: per line, per element type in table
order, the first matching pattern of that type yields one element (the inner
`break` leaves only that type's pattern list). -/
def rustExtractElements (content : String) (lines : List String) :
    List CodeElement :=
  lines.enum.flatMap fun (i, line) =>
    let line_num := i + 1
    let line_stripped := pyStrip line
    if line_stripped = "" || pyStartsWith line_stripped "//" then []
    else
      rust_element_patterns.filterMap fun (ety, pat) =>
        (pat line).map fun nm =>
          rustBuildElement content lines line_num line line_stripped ety nm

/-- `re.search("^\s*use\s+([^;]+);", line)`, returning the captured text. -/
def tryUseStatement (line : String) : Option String :=
  let r0 := line.data.dropWhile pyIsSpace
  if "use".data.isPrefixOf r0 then
    match r0.drop 3 with
    | c :: rest =>
      if pyIsSpace c then
        let body := (rest.dropWhile pyIsSpace)
        let cap := body.takeWhile (· ≠ ';')
        -- `\s+` then `([^;]+)` then a literal `;`
        if cap.length ≠ 0 && cap.length < body.length then some ⟨cap⟩ else none
      else none
    | [] => none
  else none

/-- `re.search("^\s*extern\s+crate\s+(\w+)", line)`. -/
def tryExternCrate (line : String) : Option String :=
  let r0 := line.data.dropWhile pyIsSpace
  if "extern".data.isPrefixOf r0 then
    match matchKwName "crate".data
        ((fun l => match l with
          | c :: rest => if pyIsSpace c then rest.dropWhile pyIsSpace else []
          | [] => []) (r0.drop 6)) with
    | some nm => some nm
    | none => none
  else none

/-- `RustAnalyzer._parse_use_statement` (lines 432–453). -/
def parseUseStatement (u : String) : String × List String :=
  if !pyIn "::" u then (u, [])
  else if pyIn "\x7b" u && pyIn "\x7d" u then
    let parts := (splitChar (Char.ofNat 123) u.data).map List.asString
    let module := pyStrip (pyRStripChars [':'] (parts.headD ""))
    let items_part := beforeFirst "\x7d" (parts.getD 1 "")
    let items := ((splitChar ',' items_part.data).map List.asString).filterMap
      fun item => let it := pyStrip item; if it ≠ "" then some it else none
    (module, items)
  else if pyEndsWith u "::*" then (⟨u.data.take (u.data.length - 3)⟩, ["*"])
  else
    let parts := pySplitSub "::" u
    if parts.length > 1 then
      (pyJoin "::" parts.dropLast, [parts.getLastD ""])
    else (u, [])

/-- `RustAnalyzer._determine_rust_import_type` (lines 455–480). -/
def determineRustImportType (fs : String → Bool) (module project_root : String) :
    String :=
  if pyStartsWith module "crate::" then "local"
  else if pyStartsWith module "super::" || pyStartsWith module "self::" then
    "relative"
  else if pyStartsWith module "std::" || pyStartsWith module "core::" ||
      pyStartsWith module "alloc::" then "standard"
  else
    let module_parts := pySplitSub "::" module
    let src := pyPathJoin project_root "src"
    let potential_paths :=
      [pyPathJoin src (module_parts.headD "" ++ ".rs"),
       pyPathJoin (pyPathJoin src (module_parts.headD "")) "mod.rs"]
    if potential_paths.any fs then "local" else "third_party"

/-- `RustAnalyzer._extract_imports` (lines 398–430): both use-statement
patterns are tried on every line (no break), each producing one `Import`. -/
def rustExtractImports (fs : String → Bool) (lines : List String)
    (input : PluginInput) : List Import :=
  lines.enum.flatMap fun (i, line) =>
    let line_num := i + 1
    let fromCap := fun (cap : String) =>
      let mi := parseUseStatement cap
      { module := mi.1, items := mi.2, line_number := line_num,
        import_type := determineRustImportType fs mi.1 input.project_root
        : Import }
    ((tryUseStatement line).map fun cap => [fromCap (pyStrip cap)]).getD [] ++
      ((tryExternCrate line).map fun cap => [fromCap (pyStrip cap)]).getD []

/-- `re.search("^\s*pub\s+KW\s+(\w+)", line)`. -/
def matchPubDecl (kw : String) (line : String) : Option String :=
  let r0 := line.data.dropWhile pyIsSpace
  if "pub".data.isPrefixOf r0 then
    match r0.drop 3 with
    | c :: rest =>
      if pyIsSpace c then matchKwName kw.data (rest.dropWhile pyIsSpace)
      else none
    | [] => none
  else none

/-- `RustAnalyzer._extract_exports` (lines 482–502). -/
def rustExtractExports (lines : List String) : List String :=
  (lines.flatMap fun line =>
    ["fn", "struct", "enum", "trait", "type", "const", "mod"].filterMap
      fun kw => matchPubDecl kw line).dedup

/-- `RustAnalyzer._resolve_rust_module_path` (lines 527–552). -/
def resolveRustModulePath (fs : String → Bool) (module_name : String)
    (input : PluginInput) : Option String :=
  let project_root := input.project_root
  let m := if pyStartsWith module_name "crate::" then
    (⟨module_name.data.drop 7⟩ : String) else module_name
  let module_parts := pySplitSub "::" m
  let src := pyPathJoin project_root "src"
  let potential_paths :=
    [pyPathJoin src (pyJoin "/" module_parts ++ ".rs"),
     pyPathJoin (pyPathJoin src (pyJoin "/" module_parts)) "mod.rs",
     pyPathJoin src (module_parts.headD "" ++ ".rs"),
     pyPathJoin (pyPathJoin src (module_parts.headD "")) "mod.rs"]
  (potential_paths.find? fs).map fun path =>
    match pyRelativeTo path project_root with
    | some rel => rel
    | none => path

/-- `RustAnalyzer._extract_relationships` (lines 504–525). -/
def rustExtractRelationships (fs : String → Bool) (imports : List Import)
    (input : PluginInput) : List Relationship :=
  imports.filterMap fun imp =>
    if imp.import_type = "local" then
      (resolveRustModulePath fs imp.module input).map fun target_file =>
        { from_file := input.relative_path, to_file := target_file,
          relationship_type := "import", details := "use " ++ imp.module,
          line_number := some imp.line_number, strength := 0.8 }
    else none

/-- `RustAnalyzer._calculate_token_info` (lines 143–185). -/
def rustCalculateTokenInfo (content : String) : TokenInfo :=
  let total_tokens := estimate_code_tokens content
  let doc_tokens : Nat := ((pySplitNl content).map fun line =>
    let st := pyStrip line
    if pyStartsWith st "///" || pyStartsWith st "//!" then
      rust_estimate_tokens ⟨st.data.drop 3⟩
    else if pyStartsWith st "/**" || pyStartsWith st "/*!" then
      rust_estimate_tokens st
    else 0).sum
  let comment_tokens : Nat := ((pySplitNl content).map fun line =>
    let st := pyStrip line
    if pyStartsWith st "//" && !pyStartsWith st "///" && !pyStartsWith st "//!"
    then rust_estimate_tokens ⟨st.data.drop 2⟩
    else if pyIn "/*" st && !pyStartsWith st "/**" && !pyStartsWith st "/*!"
    then rust_estimate_tokens st
    else 0).sum
  let code_tokens : Nat :=
    (max 0 ((total_tokens : Int) - (doc_tokens : Int) - (comment_tokens : Int))).toNat
  { total_tokens := total_tokens, code_tokens := code_tokens,
    documentation_tokens := doc_tokens, comment_tokens := comment_tokens }

/-- `RustAnalyzer._check_for_main_entry` (lines 187–199). -/
def rustCheckForMainEntry (content : String) : Bool :=
  (pySplitNl content).any fun line =>
    let tryMain := fun (l : List Char) =>
      match matchKwName "fn".data l with
      | some _ =>
        -- `fn\s+main\s*\(`: the captured identifier must be `main` and be
        -- followed by `\s*(`.
        (match
          (if "fn".data.isPrefixOf l then
            match l.drop 2 with
            | c :: rest =>
              if pyIsSpace c then
                let body := rest.dropWhile pyIsSpace
                if "main".data.isPrefixOf body then
                  let r := (body.drop 4).dropWhile pyIsSpace
                  match r with
                  | '(' :: _ => some ()
                  | _ => none
                else none
              else none
            | [] => none
          else none) with
        | some _ => true
        | none => false)
      | none => false
    let r0 := line.data.dropWhile pyIsSpace
    tryMain r0 ||
      (if "pub".data.isPrefixOf r0 then
        match r0.drop 3 with
        | c :: rest => if pyIsSpace c then tryMain (rest.dropWhile pyIsSpace)
          else false
        | [] => false
      else false)

/-- `RustAnalyzer._analyze_rust_code` (lines 111–141). -/
def analyzeRustCode (fs : String → Bool) (input : PluginInput) : PluginOutput :=
  let content := input.content
  let lines := pySplitNl content
  let elements := rustExtractElements content lines
  let imports := rustExtractImports fs lines input
  let exports := rustExtractExports lines
  let relationships := rustExtractRelationships fs imports input
  let token_info := rustCalculateTokenInfo content
  let has_main_fn := rustCheckForMainEntry content
  { file_path := input.file_path, file_hash := "", elements := elements,
    imports := imports, exports := exports, relationships := relationships,
    external_dependencies := [], token_info := some token_info,
    metadata :=
      [("has_main_fn", .b has_main_fn),
       ("is_lib_rs", .b (pyEndsWith input.relative_path "lib.rs")),
       ("is_main_rs", .b (pyEndsWith input.relative_path "main.rs"))] }

/-! ### `simple_toml_parse` and the Cargo manifest analyzers -/

inductive TomlVal where
  | str : String → TomlVal
  | table : List (String × String) → TomlVal
deriving DecidableEq, Repr

/-- `dict` update: replace an existing key's value or append. -/
def assocUpdate (k : String) (v : α) : List (String × α) → List (String × α)
  | [] => [(k, v)]
  | (k', v') :: t => if k' = k then (k, v) :: t else (k', v') :: assocUpdate k v t

def assocLookup (k : String) : List (String × α) → Option α
  | [] => none
  | (k', v) :: t => if k' = k then some v else assocLookup k t

/-- `RustAnalyzer.simple_toml_parse` (lines 554–602). -/
def simpleTomlParse (content : String) :
    List (String × List (String × TomlVal)) :=
  let step := fun (st : Option String × List (String × List (String × TomlVal)))
      (rawLine : String) =>
    let line := pyStrip rawLine
    let current_section := st.1
    let result := st.2
    if line = "" || pyStartsWith line "#" then st
    else if pyStartsWith line "[" && pyEndsWith line "]" then
      let section_name :=
        pyStrip ⟨(line.data.take (line.data.length - 1)).drop 1⟩
      let result :=
        if (assocLookup section_name result).isSome then result
        else result ++ [(section_name, [])]
      (some section_name, result)
    else if pyIn "=" line && (current_section.getD "") ≠ "" then
      match pySplitOnce "=" line with
      | some (rawKey, rawVal) =>
        let key := pyStripChars ['"'] (pyStrip rawKey)
        let value_raw := pyStrip rawVal
        let value : TomlVal :=
          if pyStartsWith value_raw "\"" && pyEndsWith value_raw "\"" then
            .str ⟨(value_raw.data.take (value_raw.data.length - 1)).drop 1⟩
          else if pyStartsWith value_raw "'" && pyEndsWith value_raw "'" then
            .str ⟨(value_raw.data.take (value_raw.data.length - 1)).drop 1⟩
          else if pyStartsWith value_raw "\x7b" && pyEndsWith value_raw "\x7d" then
            let dict_content :=
              (⟨(value_raw.data.take (value_raw.data.length - 1)).drop 1⟩ : String)
            .table (((splitChar ',' dict_content.data).map List.asString).foldl
              (fun acc pair =>
                if pyIn "=" pair then
                  match pySplitOnce "=" pair with
                  | some (k, v) =>
                    assocUpdate (pyStripChars ['"'] (pyStrip k))
                      (pyStripChars ['"'] (pyStrip v)) acc
                  | none => acc
                else acc) [])
          else .str value_raw
        let sec := current_section.getD ""
        let result := result.map fun (s, kvs) =>
          if s = sec then (s, assocUpdate key value kvs) else (s, kvs)
        (current_section, result)
      | none => st
    else st
  (((pySplitNl content).foldl step (none, []))).2

/-- Value of `section.get(k)` where a missing section yields `{}`. -/
def tomlSectionGet (data : List (String × List (String × TomlVal)))
    (sect k : String) : Option TomlVal :=
  match assocLookup sect data with
  | some kvs => assocLookup k kvs
  | none => none

def tomlValToMeta : Option TomlVal → MetaVal
  | none => .os none
  | some (.str s) => .os (some s)
  | some (.table kvs) => .kvs kvs

/-- `RustAnalyzer._analyze_cargo_toml` (lines 604–670). -/
def analyzeCargoToml (input : PluginInput) : PluginOutput :=
  let content_tokens := rust_estimate_tokens input.content
  let cargo_data := simpleTomlParse input.content
  let sections := ["dependencies", "dev-dependencies", "build-dependencies"]
  let dependencies := sections.flatMap fun sect =>
    match assocLookup sect cargo_data with
    | some kvs =>
      let dep_type :=
        if sect = "dependencies" then "runtime"
        else if sect = "dev-dependencies" then "development"
        else if sect = "build-dependencies" then "build"
        else "runtime"
      kvs.map fun (nm, spec) =>
        let version : Option String :=
          match spec with
          | .str s => some s
          | .table t => assocLookup "version" t
        { name := nm, version := version, ecosystem := "cargo",
          dependency_type := dep_type, source_file := input.relative_path
          : ExternalDependency }
    | none => []
  { file_path := input.file_path, file_hash := "", elements := [],
    imports := [], exports := [], relationships := [],
    external_dependencies := dependencies,
    file_summary := some
      ("Rust Cargo.toml with " ++ toString dependencies.length ++
        " dependencies"),
    token_info := some
      { total_tokens := content_tokens, code_tokens := content_tokens,
        documentation_tokens := 0, comment_tokens := 0 },
    metadata :=
      [("package_name", tomlValToMeta (tomlSectionGet cargo_data "package" "name")),
       ("package_version",
        tomlValToMeta (tomlSectionGet cargo_data "package" "version"))] }

/-- `RustAnalyzer._analyze_cargo_lock` (lines 672–717).  Values that are
inline tables are not representable in the typed dependency record and fall
back to the defaults (`"unknown"` / no version); the parser never produces
them for well-formed `Cargo.lock` files. -/
def analyzeCargoLock (input : PluginInput) : PluginOutput :=
  let content_tokens := rust_estimate_tokens input.content
  let lock_data := simpleTomlParse input.content
  let dependencies :=
    match assocLookup "package" lock_data with
    | some kvs =>
      let nm := match assocLookup "name" kvs with
        | some (.str s) => s
        | _ => "unknown"
      let version := match assocLookup "version" kvs with
        | some (.str s) => some s
        | _ => none
      [{ name := nm, version := version, ecosystem := "cargo",
         dependency_type := "runtime", source_file := input.relative_path
         : ExternalDependency }]
    | none => []
  { file_path := input.file_path, file_hash := "", elements := [],
    imports := [], exports := [], relationships := [],
    external_dependencies := dependencies,
    file_summary := some
      ("Rust Cargo.lock with " ++ toString dependencies.length ++ " locked"),
    token_info := some
      { total_tokens := content_tokens, code_tokens := content_tokens,
        documentation_tokens := 0, comment_tokens := 0 },
    metadata := [("is_lockfile", .b true)] }

/-! ### `RustAnalyzer` probe and dispatch -/

def rust_supported_extensions : List String := [".rs"]

def rust_supported_filenames : List String :=
  ["Cargo.toml", "Cargo.lock", ".rustfmt.toml", "rust-toolchain.toml",
   "rust-toolchain"]

def rust_indicators : List String :=
  ["fn ", "struct ", "impl ", "enum ", "trait ", "mod ", "use ", "pub "]

/-- `RustAnalyzer.can_analyze` (lines 67–96). -/
def rustCanAnalyze (file_path content_preview : String) : Bool × ℚ :=
  if rust_supported_extensions.contains (pyPathSuffix file_path) then (true, 1.0)
  else if (rust_supported_filenames.map pyLower).contains
      (pyLower (pyPathName file_path)) then (true, 0.9)
  else
    let indicator_count :=
      (rust_indicators.filter fun ind => pyIn ind content_preview).length
    if indicator_count ≥ 3 then (true, 0.8)
    else if indicator_count ≥ 1 then (true, 0.6)
    else (false, 0.0)

/-- `RustAnalyzer.analyze` (lines 98–109).  (The Cargo filename comparisons
are case-sensitive here, unlike the probe.) -/
def rustAnalyze (fs : String → Bool) (input : PluginInput) : PluginOutput :=
  let p := input.file_path
  if pyPathSuffix p = ".rs" then analyzeRustCode fs input
  else if pyPathName p = "Cargo.toml" then analyzeCargoToml input
  else if pyPathName p = "Cargo.lock" then analyzeCargoLock input
  else analyzeRustCode fs input

/-! ## Notions for the complexity-monotonicity analysis

`calculate_complexity` scores a block by summing `str.count` over a fixed
pattern list; these definitions name that block, the pattern list, and the
substring-occurrence/packing notions the proofs reason with. -/

/-- The line-range slice that `calculate_complexity` scores. -/
def complexityBlock (code : String) (element_start element_end : Nat) : String :=
  pyJoin "\n" (pySlice (element_start - 1) element_end (pySplitNl code))

/-- The space- and tab-delimited control-flow patterns counted by
`calculate_complexity`. -/
def ctrlPatterns : List (List Char) :=
  (complexity_keywords.map fun kw => (" " ++ kw ++ " ").data) ++
    (complexity_keywords.map fun kw => ("\t" ++ kw ++ " ").data)

/-- All counted patterns: the control-flow patterns plus `"def "`. -/
def cxPatterns : List (List Char) := ctrlPatterns ++ ["def ".data]

/-- `p` occurs in `t` at position `i`. -/
def occursAt (p t : List Char) (i : Nat) : Prop := p.isPrefixOf (t.drop i) = true

instance (p t : List Char) (i : Nat) : Decidable (occursAt p t i) := by
  unfold occursAt; infer_instance

/-- A packing: positions of pairwise non-overlapping occurrences of `p`
in `t`. -/
def IsPacking (p t : List Char) (xs : List Nat) : Prop :=
  List.Pairwise (fun a b => a + p.length ≤ b) xs ∧ ∀ i ∈ xs, occursAt p t i

/-! ## Concrete fixtures for counterexamples and witnesses -/

/-- Source text with a class that defines the method name `f` twice
(legal Python: the second definition overrides the first). -/
def dupMethodsContent : String :=
  "class C:\n    def f(self):\n        pass\n    def f(self):\n        pass\n"

/-- The CPython AST of `dupMethodsContent`. -/
def dupMethodsTree : PyNode :=
  .module (.cons
    (.classDef "C" .nil
      (.cons (.functionDef "f" ["self"] (.cons .pass .nil) .nil 2 (some 3))
        (.cons (.functionDef "f" ["self"] (.cons .pass .nil) .nil 4 (some 5))
          .nil))
      .nil 1 (some 5))
    .nil)

def dupMethodsInput : PluginInput :=
  { file_path := "/proj/c.py", relative_path := "c.py",
    content := dupMethodsContent, project_root := "/proj", cache_dir := "/c" }

/-- A requirements-manifest input whose content is not parseable as Python. -/
def reqRouteInput : PluginInput :=
  { file_path := "/proj/requirements.txt", relative_path := "requirements.txt",
    content := "def (", project_root := "/proj", cache_dir := "/c" }

/-- A parse stub that rejects every content (models `ast.parse` raising
`SyntaxError: invalid syntax`). -/
def alwaysFailParse : String → Except String PyNode :=
  fun _ => .error "invalid syntax (<unknown>, line 1)"

/-- An empty filesystem (no candidate path exists). -/
def emptyFs : String → Bool := fun _ => false

/-- The elements of a non-raising analysis result (`[]` when an exception
propagated). -/
def exceptElements : Except String PluginOutput → List CodeElement
  | .ok out => out.elements
  | .error _ => []

/-- An AST-routed input (suffix `.py`) whose content fails to parse. -/
def astRouteInput : PluginInput :=
  { file_path := "/proj/m.py", relative_path := "m.py", content := "def (",
    project_root := "/proj", cache_dir := "/c" }

/-! # Theorems -/

/-! ## C10 — the two `calculate_complexity` copies are extensionally equal -/

/-- C10: the legacy copy of `calculate_complexity` in
`shared/base_analyzer.py` and the SDK copy in `csd_plugin_sdk/base/input.py`
return the same integer on every `(code, element_start, element_end)`. -/
theorem C10_complexity_copies_equal :
    ∀ (code : String) (element_start element_end : Nat),
      legacy_calculate_complexity code element_start element_end =
        calculate_complexity code element_start element_end :=
  fun _ _ _ => rfl

/-! ## C8 — the coarse token estimator -/

/-- C8 counterexample: on the empty string, `estimate_tokens` returns `0`,
not `max 1 ⌊0/4⌋ = 1`; the claimed lower bound of 1 "for every input,
including the empty string" fails. -/
theorem C8_counterexample :
    estimate_tokens "" = 0 ∧ rust_estimate_tokens "" = 0 ∧
      estimate_tokens "" ≠ max 1 (String.length "" / 4) := by
  decide

/-- C8 (amended): on every non-empty text both copies of `estimate_tokens`
return `max 1 ⌊len/4⌋ ≥ 1`; the empty string is special-cased to `0`. -/
theorem C8_estimate_tokens_amended :
    ∀ s : String, s ≠ "" →
      estimate_tokens s = max 1 (s.length / 4) ∧ 1 ≤ estimate_tokens s ∧
        rust_estimate_tokens s = estimate_tokens s := by
  intro s h
  unfold estimate_tokens rust_estimate_tokens
  simp [h]

/-- C8 witness: the amended statement at the 8-character text `"abcdefgh"`. -/
theorem C8_witness :
    estimate_tokens "abcdefgh" = max 1 (String.length "abcdefgh" / 4) ∧
      1 ≤ estimate_tokens "abcdefgh" := by
  have h := C8_estimate_tokens_amended "abcdefgh" (by decide)
  exact ⟨h.1, h.2.1⟩

/-! ## C2 — the cache filename -/

set_option maxRecDepth 20000 in
/-- C2 counterexample: two analyze requests that agree on engine name,
`relative_path` and `content` but differ in `file_path` receive different
cache filenames — the hash covers `file_path + content`, so the filename is
not a function of the claimed triple. -/
theorem C2_counterexample :
    (⟨"/a/m.py", "m.py", "x", "/a", "/c"⟩ : PluginInput).relative_path =
        (⟨"/b/m.py", "m.py", "x", "/a", "/c"⟩ : PluginInput).relative_path ∧
      (⟨"/a/m.py", "m.py", "x", "/a", "/c"⟩ : PluginInput).content =
        (⟨"/b/m.py", "m.py", "x", "/a", "/c"⟩ : PluginInput).content ∧
      generate_cache_filename "python" ⟨"/a/m.py", "m.py", "x", "/a", "/c"⟩ ≠
        generate_cache_filename "python" ⟨"/b/m.py", "m.py", "x", "/a", "/c"⟩ := by
  refine ⟨rfl, rfl, ?_⟩
  decide

/-- C2 (amended): the cache filename is a pure function of the quadruple
(engine name, file path, relative path, content); it follows the grammar
`{engine}_{sanitized relative path}_{16 hex chars of md5(file_path +
content)}.json`; and with equal engine names and relative paths, different
truncated hashes give different filenames (so a content change that changes
the truncated hash changes the filename). -/
theorem C2_cache_filename_amended :
    (∀ (nm : String) (i1 i2 : PluginInput),
      i1.file_path = i2.file_path → i1.relative_path = i2.relative_path →
      i1.content = i2.content →
      generate_cache_filename nm i1 = generate_cache_filename nm i2) ∧
    (∀ (nm : String) (i : PluginInput),
      generate_cache_filename nm i =
        nm ++ "_" ++ sanitizeRelPath i.relative_path ++ "_" ++
          (⟨(md5Hex (i.file_path ++ i.content)).data.take 16⟩ : String) ++
          ".json") ∧
    (∀ (nm : String) (i1 i2 : PluginInput),
      i1.relative_path = i2.relative_path →
      (md5Hex (i1.file_path ++ i1.content)).data.take 16 ≠
        (md5Hex (i2.file_path ++ i2.content)).data.take 16 →
      generate_cache_filename nm i1 ≠ generate_cache_filename nm i2) := by
  refine ⟨?_, ?_, ?_⟩
  · intro nm i1 i2 h1 h2 h3
    unfold generate_cache_filename
    rw [h1, h2, h3]
  · intro nm i
    rfl
  · intro nm i1 i2 hrp hne heq
    apply hne
    unfold generate_cache_filename at heq
    rw [hrp] at heq
    have hdata := congrArg String.data heq
    simp only [String.data_append, List.append_assoc] at hdata
    have h1 := List.append_cancel_left hdata
    have h2 := List.append_cancel_left h1
    have h3 := List.append_cancel_left h2
    have h4 := List.append_cancel_left h3
    exact List.append_cancel_right h4

set_option maxRecDepth 20000 in
/-- C2 witness: the amended statement applied at concrete inputs — equal
quadruples give the same filename, and two contents with different truncated
hashes give different filenames. -/
theorem C2_witness :
    generate_cache_filename "python" ⟨"/a/m.py", "m.py", "x", "/a", "/c"⟩ =
        generate_cache_filename "python" ⟨"/a/m.py", "m.py", "x", "/a", "/c"⟩ ∧
      generate_cache_filename "python" ⟨"/a/m.py", "m.py", "x", "/a", "/c"⟩ ≠
        generate_cache_filename "python" ⟨"/a/m.py", "m.py", "y", "/a", "/c"⟩ := by
  constructor
  · exact C2_cache_filename_amended.1 "python" _ _ rfl rfl rfl
  · exact C2_cache_filename_amended.2.2 "python" _ _ rfl (by decide)

/-! ## C6 — the capability probes -/

/-- C6 counterexample: a preview with three Python keyword hits gets
confidence `0.7` from the AST engine, not the claimed `0.8` (the code's
threshold is two hits → 0.7, one hit → 0.5). -/
theorem C6_counterexample :
    3 ≤ (python_indicators.filter fun ind =>
        pyIn ind "def class import ").length ∧
      pythonCanAnalyze "unknown" "def class import " = (true, 0.7) ∧
      (0.7 : ℚ) ≠ 0.8 := by
  refine ⟨by decide, rfl, by norm_num⟩

/-- C6 (amended): the tiers actually implemented.  AST (Python) engine:
supported extension → 1.0; known filename, case-insensitively → 0.9;
recognized shebang prefix → 0.8; ≥ 2 keyword hits → 0.7; ≥ 1 hit → 0.5;
otherwise (false, 0).  Heuristic (Rust) engine (which has no shebang tier):
supported extension → 1.0; known filename → 0.9; ≥ 3 keyword hits → 0.8;
≥ 1 hit → 0.6; otherwise (false, 0). -/
theorem C6_can_analyze_amended :
    ∀ fp cp : String,
      (python_supported_extensions.contains (pyPathSuffix fp) = true →
        pythonCanAnalyze fp cp = (true, 1.0)) ∧
      (python_supported_extensions.contains (pyPathSuffix fp) = false →
        (python_supported_filenames.map pyLower).contains
          (pyLower (pyPathName fp)) = true →
        pythonCanAnalyze fp cp = (true, 0.9)) ∧
      (python_supported_extensions.contains (pyPathSuffix fp) = false →
        (python_supported_filenames.map pyLower).contains
          (pyLower (pyPathName fp)) = false →
        (pyStartsWith cp "#!/usr/bin/env python" ||
          pyStartsWith cp "#!/usr/bin/python") = true →
        pythonCanAnalyze fp cp = (true, 0.8)) ∧
      (python_supported_extensions.contains (pyPathSuffix fp) = false →
        (python_supported_filenames.map pyLower).contains
          (pyLower (pyPathName fp)) = false →
        (pyStartsWith cp "#!/usr/bin/env python" ||
          pyStartsWith cp "#!/usr/bin/python") = false →
        2 ≤ (python_indicators.filter fun ind => pyIn ind cp).length →
        pythonCanAnalyze fp cp = (true, 0.7)) ∧
      (python_supported_extensions.contains (pyPathSuffix fp) = false →
        (python_supported_filenames.map pyLower).contains
          (pyLower (pyPathName fp)) = false →
        (pyStartsWith cp "#!/usr/bin/env python" ||
          pyStartsWith cp "#!/usr/bin/python") = false →
        (python_indicators.filter fun ind => pyIn ind cp).length = 1 →
        pythonCanAnalyze fp cp = (true, 0.5)) ∧
      (python_supported_extensions.contains (pyPathSuffix fp) = false →
        (python_supported_filenames.map pyLower).contains
          (pyLower (pyPathName fp)) = false →
        (pyStartsWith cp "#!/usr/bin/env python" ||
          pyStartsWith cp "#!/usr/bin/python") = false →
        (python_indicators.filter fun ind => pyIn ind cp).length = 0 →
        pythonCanAnalyze fp cp = (false, 0.0)) ∧
      (rust_supported_extensions.contains (pyPathSuffix fp) = true →
        rustCanAnalyze fp cp = (true, 1.0)) ∧
      (rust_supported_extensions.contains (pyPathSuffix fp) = false →
        (rust_supported_filenames.map pyLower).contains
          (pyLower (pyPathName fp)) = true →
        rustCanAnalyze fp cp = (true, 0.9)) ∧
      (rust_supported_extensions.contains (pyPathSuffix fp) = false →
        (rust_supported_filenames.map pyLower).contains
          (pyLower (pyPathName fp)) = false →
        3 ≤ (rust_indicators.filter fun ind => pyIn ind cp).length →
        rustCanAnalyze fp cp = (true, 0.8)) ∧
      (rust_supported_extensions.contains (pyPathSuffix fp) = false →
        (rust_supported_filenames.map pyLower).contains
          (pyLower (pyPathName fp)) = false →
        1 ≤ (rust_indicators.filter fun ind => pyIn ind cp).length →
        (rust_indicators.filter fun ind => pyIn ind cp).length < 3 →
        rustCanAnalyze fp cp = (true, 0.6)) ∧
      (rust_supported_extensions.contains (pyPathSuffix fp) = false →
        (rust_supported_filenames.map pyLower).contains
          (pyLower (pyPathName fp)) = false →
        (rust_indicators.filter fun ind => pyIn ind cp).length = 0 →
        rustCanAnalyze fp cp = (false, 0.0)) := by
  intro fp cp
  refine ⟨?_, ?_, ?_, ?_, ?_, ?_, ?_, ?_, ?_, ?_, ?_⟩
  · intro h1
    simp only [pythonCanAnalyze]
    rw [if_pos h1]
  · intro h1 h2
    simp only [pythonCanAnalyze]
    rw [if_neg (by simpa using h1), if_pos h2]
  · intro h1 h2 h3
    simp only [pythonCanAnalyze]
    rw [if_neg (by simpa using h1), if_neg (by simpa using h2), if_pos h3]
  · intro h1 h2 h3 h4
    simp only [pythonCanAnalyze]
    rw [if_neg (by simpa using h1), if_neg (by simpa using h2), if_neg (by simpa using h3),
      if_pos (by omega)]
  · intro h1 h2 h3 h4
    simp only [pythonCanAnalyze]
    rw [if_neg (by simpa using h1), if_neg (by simpa using h2), if_neg (by simpa using h3),
      if_neg (by omega), if_pos (by omega)]
  · intro h1 h2 h3 h4
    simp only [pythonCanAnalyze]
    rw [if_neg (by simpa using h1), if_neg (by simpa using h2), if_neg (by simpa using h3),
      if_neg (by omega), if_neg (by omega)]
  · intro h1
    simp only [rustCanAnalyze]
    rw [if_pos h1]
  · intro h1 h2
    simp only [rustCanAnalyze]
    rw [if_neg (by simpa using h1), if_pos h2]
  · intro h1 h2 h3
    simp only [rustCanAnalyze]
    rw [if_neg (by simpa using h1), if_neg (by simpa using h2), if_pos (by omega)]
  · intro h1 h2 h3 h4
    simp only [rustCanAnalyze]
    rw [if_neg (by simpa using h1), if_neg (by simpa using h2), if_neg (by omega),
      if_pos (by omega)]
  · intro h1 h2 h3
    simp only [rustCanAnalyze]
    rw [if_neg (by simpa using h1), if_neg (by simpa using h2), if_neg (by omega),
      if_neg (by omega)]

/-- C6 witness: the amended tier statements at concrete inputs. -/
theorem C6_witness :
    pythonCanAnalyze "x.py" "" = (true, 1.0) ∧
      rustCanAnalyze "y.rs" "" = (true, 1.0) ∧
      pythonCanAnalyze "unknown" "def class import " = (true, 0.7) := by
  refine ⟨(C6_can_analyze_amended "x.py" "").1 (by decide),
    (C6_can_analyze_amended "y.rs" "").2.2.2.2.2.2.1 (by decide),
    (C6_can_analyze_amended "unknown" "def class import ").2.2.2.1
      (by decide) (by decide) (by decide) (by decide)⟩

/-! ## C7 — the requirements-manifest parser -/

/-- The prefix cut before the first occurrence of a character contains no
occurrence of that character. -/
theorem containsSub_splitOnce_left_single {c : Char} :
    ∀ {l left right : List Char},
      splitOnceSub [c] l = some (left, right) → containsSub [c] left = false := by
  intro l
  induction l with
  | nil => intro left right h; simp [splitOnceSub] at h
  | cons d t ih =>
    intro left right h
    simp only [splitOnceSub] at h
    by_cases hp : [c].isPrefixOf (d :: t)
    · rw [if_pos hp] at h
      obtain ⟨h1, _⟩ := Prod.mk.injEq .. ▸ (Option.some.injEq .. ▸ h)
      subst h1
      rfl
    · rw [if_neg hp] at h
      match hsp : splitOnceSub [c] t with
      | some (l', r') =>
        rw [hsp] at h
        obtain ⟨h1, _⟩ := Prod.mk.injEq .. ▸ (Option.some.injEq .. ▸ h)
        subst h1
        have hdc : (c == d) = false := by
          by_contra hcd
          apply hp
          simp only [List.isPrefixOf, Bool.and_eq_true, List.isPrefixOf_nil_left,
            and_true]
          cases hb : c == d
          · exact absurd hb hcd
          · rfl
        simp only [containsSub, List.isPrefixOf, hdc, Bool.false_and,
          Bool.false_or]
        exact ih hsp
      | none => rw [hsp] at h; exact absurd h (by simp)

/-- `beforeFirst "[" s` contains no `[`. -/
theorem pyIn_bracket_beforeFirst (s : String) :
    pyIn "[" (beforeFirst "[" s) = false := by
  unfold beforeFirst pyIn
  match h : splitOnceSub "[".data s.data with
  | some (l, r) => exact containsSub_splitOnce_left_single h
  | none =>
    -- `beforeFirst` returns `s` itself, but this branch is only reached when
    -- the guard `pyIn "[" nv.1` was false, handled at the call site; here we
    -- show the membership scan itself reports absence.
    simp only
    have : ∀ t : List Char, splitOnceSub "[".data t = none →
        containsSub "[".data t = false := by
      intro t
      induction t with
      | nil => intro ht; rfl
      | cons d t ih =>
        intro ht
        simp only [splitOnceSub] at ht
        by_cases hp : "[".data.isPrefixOf (d :: t)
        · rw [if_pos hp] at ht; exact absurd ht (by simp)
        · rw [if_neg hp] at ht
          simp only [containsSub, hp, Bool.false_or]
          match hsp : splitOnceSub "[".data t with
          | some (l', r') => rw [hsp] at ht; exact absurd ht (by simp)
          | none => exact ih hsp
    exact this s.data h

/-- C7: for every non-blank, non-comment line of a requirements manifest the
parser records a version only when `==` occurs in the (stripped) line;
`pkg==1.2.3` yields name `pkg` with version `1.2.3`; `pkg>=1.0` yields no
version; and the recorded name never contains a bracketed extras suffix.
The first conjunct ties the per-line function to the manifest analyzer. -/
theorem C7_requirements_lines :
    (∀ input : PluginInput,
      (analyzeRequirementsTxt input).external_dependencies =
        (pySplitNl input.content).filterMap
          (requirementsLineDep input.relative_path)) ∧
    (∀ (rp line : String) (dep : ExternalDependency),
      requirementsLineDep rp line = some dep → dep.version.isSome = true →
      pyIn "==" (pyStrip line) = true) ∧
    (∀ rp : String, requirementsLineDep rp "pkg==1.2.3" =
      some { name := "pkg", version := some "1.2.3", ecosystem := "pip",
             dependency_type := "runtime", source_file := rp }) ∧
    (∀ rp : String, requirementsLineDep rp "pkg>=1.0" =
      some { name := "pkg", version := none, ecosystem := "pip",
             dependency_type := "runtime", source_file := rp }) ∧
    (∀ rp : String, requirementsLineDep rp "pkg[extra]==2.0" =
      some { name := "pkg", version := some "2.0", ecosystem := "pip",
             dependency_type := "runtime", source_file := rp }) ∧
    (∀ (rp line : String) (dep : ExternalDependency),
      requirementsLineDep rp line = some dep → pyIn "[" dep.name = false) := by
  refine ⟨fun _ => rfl, ?_, fun _ => rfl, fun _ => rfl, fun _ => rfl, ?_⟩
  · intro rp line dep h hv
    unfold requirementsLineDep at h
    by_cases hblank : pyStrip line = "" ∨ pyStartsWith (pyStrip line) "#"
    · rw [if_pos (by simpa using hblank)] at h
      exact absurd h (by simp)
    · rw [if_neg (by simpa using hblank)] at h
      by_cases heq : pyIn "==" (pyStrip line) = true
      · exact heq
      · exfalso
        simp only [Bool.not_eq_true] at heq
        rw [heq] at h
        simp only [Bool.false_eq_true, if_false] at h
        by_cases hge : pyIn ">=" (pyStrip line) = true
        all_goals simp only [Bool.not_eq_true] at hge
        · rw [hge] at h
          simp only [if_true] at h
          rw [Option.some_inj] at h
          subst h
          simp at hv
        · rw [hge] at h
          simp only [Bool.false_eq_true, if_false] at h
          by_cases hle : pyIn "<=" (pyStrip line) = true
          all_goals simp only [Bool.not_eq_true] at hle
          · rw [hle] at h
            simp only [if_true] at h
            rw [Option.some_inj] at h
            subst h
            simp at hv
          · rw [hle] at h
            simp only [Bool.false_eq_true, if_false] at h
            rw [Option.some_inj] at h
            subst h
            simp at hv
  · intro rp line dep h
    unfold requirementsLineDep at h
    by_cases hblank : pyStrip line = "" ∨ pyStartsWith (pyStrip line) "#"
    · rw [if_pos (by simpa using hblank)] at h
      exact absurd h (by simp)
    · rw [if_neg (by simpa using hblank)] at h
      simp only [Option.some.injEq] at h
      set nv : String × Option String :=
        (if pyIn "==" (pyStrip line) = true then
          match pySplitOnce "==" (pyStrip line) with
          | some (n, v) => (pyStrip n, some (pyStrip v))
          | none => (pyStrip line, none)
        else if pyIn ">=" (pyStrip line) = true then
          (pyStrip (beforeFirst ">=" (pyStrip line)), none)
        else if pyIn "<=" (pyStrip line) = true then
          (pyStrip (beforeFirst "<=" (pyStrip line)), none)
        else (pyStrip (pyStrip line), none)) with hnv
      rw [← h]
      by_cases hbr : pyIn "[" nv.1 = true
      · simp only [hbr, if_true]
        exact pyIn_bracket_beforeFirst nv.1
      · simp only [Bool.not_eq_true] at hbr
        simp only [hbr, Bool.false_eq_true, if_false]

/-- C7 witness: the parser at concrete lines, through the theorem. -/
theorem C7_witness :
    requirementsLineDep "requirements.txt" "pkg==1.2.3" =
        some { name := "pkg", version := some "1.2.3", ecosystem := "pip",
               dependency_type := "runtime",
               source_file := "requirements.txt" } ∧
      requirementsLineDep "requirements.txt" "pkg>=1.0" =
        some { name := "pkg", version := none, ecosystem := "pip",
               dependency_type := "runtime",
               source_file := "requirements.txt" } ∧
      pyIn "==" (pyStrip "pkg==1.2.3") = true := by
  refine ⟨C7_requirements_lines.2.2.1 "requirements.txt",
    C7_requirements_lines.2.2.2.1 "requirements.txt",
    C7_requirements_lines.2.1 "requirements.txt" "pkg==1.2.3" _
      (C7_requirements_lines.2.2.1 "requirements.txt") (by decide)⟩

/-! ## C3 — relationships from resolvable local imports -/

/-- C3: a local import whose candidate file exists yields exactly one
relationship — type `"import"`, strength `0.8`, the import's line number —
and a local import that resolves to nothing yields none (silently); the
per-import contributions concatenate over import lists, and every emitted
relationship stems from a resolvable local import.  Stated for both the
Python and the Rust engine. -/
theorem C3_local_import_relationships :
    (∀ (fs : String → Bool) (input : PluginInput) (imp : Import) (t : String),
      imp.import_type = "local" → resolveImportPath fs imp.module input = some t →
      pyExtractRelationships fs [imp] input =
        [{ from_file := input.relative_path, to_file := t,
           relationship_type := "import", details := "import " ++ imp.module,
           line_number := some imp.line_number, strength := 0.8 }]) ∧
    (∀ (fs : String → Bool) (input : PluginInput) (imp : Import),
      imp.import_type = "local" → resolveImportPath fs imp.module input = none →
      pyExtractRelationships fs [imp] input = []) ∧
    (∀ (fs : String → Bool) (input : PluginInput) (l1 l2 : List Import),
      pyExtractRelationships fs (l1 ++ l2) input =
        pyExtractRelationships fs l1 input ++ pyExtractRelationships fs l2 input) ∧
    (∀ (fs : String → Bool) (input : PluginInput) (imports : List Import)
        (r : Relationship), r ∈ pyExtractRelationships fs imports input →
      r.relationship_type = "import" ∧ r.strength = 0.8 ∧
        ∃ imp ∈ imports, imp.import_type = "local" ∧
          r.line_number = some imp.line_number ∧
          resolveImportPath fs imp.module input = some r.to_file) ∧
    (∀ (fs : String → Bool) (input : PluginInput) (imp : Import) (t : String),
      imp.import_type = "local" →
      resolveRustModulePath fs imp.module input = some t →
      rustExtractRelationships fs [imp] input =
        [{ from_file := input.relative_path, to_file := t,
           relationship_type := "import", details := "use " ++ imp.module,
           line_number := some imp.line_number, strength := 0.8 }]) ∧
    (∀ (fs : String → Bool) (input : PluginInput) (imp : Import),
      imp.import_type = "local" →
      resolveRustModulePath fs imp.module input = none →
      rustExtractRelationships fs [imp] input = []) ∧
    (∀ (fs : String → Bool) (input : PluginInput) (l1 l2 : List Import),
      rustExtractRelationships fs (l1 ++ l2) input =
        rustExtractRelationships fs l1 input ++
          rustExtractRelationships fs l2 input) ∧
    (∀ (fs : String → Bool) (input : PluginInput) (imports : List Import)
        (r : Relationship), r ∈ rustExtractRelationships fs imports input →
      r.relationship_type = "import" ∧ r.strength = 0.8 ∧
        ∃ imp ∈ imports, imp.import_type = "local" ∧
          r.line_number = some imp.line_number ∧
          resolveRustModulePath fs imp.module input = some r.to_file) := by
  refine ⟨?_, ?_, ?_, ?_, ?_, ?_, ?_, ?_⟩
  · intro fs input imp t hloc hres
    simp [pyExtractRelationships, hloc, hres]
  · intro fs input imp hloc hres
    simp [pyExtractRelationships, hloc, hres]
  · intro fs input l1 l2
    simp [pyExtractRelationships, List.filterMap_append]
  · intro fs input imports r hr
    simp only [pyExtractRelationships, List.mem_filterMap] at hr
    obtain ⟨imp, hmem, heq⟩ := hr
    by_cases hloc : imp.import_type = "local"
    · rw [if_pos hloc] at heq
      match hres : resolveImportPath fs imp.module input with
      | some t =>
        rw [hres] at heq
        simp only [Option.map_some', Option.some_inj] at heq
        subst heq
        exact ⟨rfl, rfl, imp, hmem, hloc, rfl, hres⟩
      | none => rw [hres] at heq; exact absurd heq (by simp)
    · rw [if_neg hloc] at heq
      exact absurd heq (by simp)
  · intro fs input imp t hloc hres
    simp [rustExtractRelationships, hloc, hres]
  · intro fs input imp hloc hres
    simp [rustExtractRelationships, hloc, hres]
  · intro fs input l1 l2
    simp [rustExtractRelationships, List.filterMap_append]
  · intro fs input imports r hr
    simp only [rustExtractRelationships, List.mem_filterMap] at hr
    obtain ⟨imp, hmem, heq⟩ := hr
    by_cases hloc : imp.import_type = "local"
    · rw [if_pos hloc] at heq
      match hres : resolveRustModulePath fs imp.module input with
      | some t =>
        rw [hres] at heq
        simp only [Option.map_some', Option.some_inj] at heq
        subst heq
        exact ⟨rfl, rfl, imp, hmem, hloc, rfl, hres⟩
      | none => rw [hres] at heq; exact absurd heq (by simp)
    · rw [if_neg hloc] at heq
      exact absurd heq (by simp)

/-- C3 witness: a resolvable local import produces exactly its one
relationship, and an unresolvable one produces none, at concrete inputs. -/
theorem C3_witness :
    pyExtractRelationships (fun p => p == "/proj/foo.py")
        [{ module := "foo", line_number := 3, import_type := "local" }]
        { file_path := "/proj/m.py", relative_path := "m.py", content := "",
          project_root := "/proj", cache_dir := "/c" } =
      [{ from_file := "m.py", to_file := "foo.py",
         relationship_type := "import", details := "import foo",
         line_number := some 3, strength := 0.8 }] ∧
    pyExtractRelationships emptyFs
        [{ module := "foo", line_number := 3, import_type := "local" }]
        { file_path := "/proj/m.py", relative_path := "m.py", content := "",
          project_root := "/proj", cache_dir := "/c" } = [] := by
  constructor
  · exact C3_local_import_relationships.1 (fun p => p == "/proj/foo.py") _ _
      "foo.py" rfl (by decide)
  · exact C3_local_import_relationships.2.1 emptyFs _ _ rfl (by decide)

/-! ## C4 — element end lines in the heuristic engine -/

/-- Every element discovered by the heuristic engine records its stripped
declaration line as signature and its `_find_element_end` result (at the
0-based index `line_start - 1`) as `line_end`. -/
theorem rustElement_end_characterization :
    ∀ (content : String) (lines : List String) (e : CodeElement),
      e ∈ rustExtractElements content lines →
      ∃ sig, e.signature = some sig ∧ 1 ≤ e.line_start ∧
        e.line_end = findElementEnd lines (e.line_start - 1) sig := by
  intro content lines e he
  simp only [rustExtractElements, List.mem_flatMap] at he
  obtain ⟨⟨i, line⟩, _, he2⟩ := he
  split at he2
  · exact absurd he2 (by simp)
  · simp only [List.mem_filterMap] at he2
    obtain ⟨p, _, hpe⟩ := he2
    rw [Option.map_eq_some'] at hpe
    obtain ⟨nm, _, hbuild⟩ := hpe
    rw [← hbuild]
    exact ⟨pyStrip line, rfl, by simp [rustBuildElement],
      by simp [rustBuildElement]⟩

/-- C4 (amended): for every element of the heuristic engine whose declaration
line (the signature) ends with the statement terminator `";"`, `line_end`
equals `line_start` — the element spans exactly its declaration line, not
`line_start + 1` as claimed; and when the brace-balance scan finds no
balancing point, `line_end ≤ line_start + 20`. -/
theorem C4_element_end_amended :
    ∀ (content : String) (lines : List String) (e : CodeElement),
      e ∈ rustExtractElements content lines →
      ∀ sig, e.signature = some sig →
      (pyEndsWith sig ";" = true → e.line_end = e.line_start) ∧
      (pyEndsWith sig ";" = false →
        braceScanAux (lines.drop (e.line_start - 1)) (e.line_start - 1) 0
          false = none →
        e.line_end ≤ e.line_start + 20) := by
  intro content lines e he sig hsig
  obtain ⟨sig', hsig', hpos, hend⟩ := rustElement_end_characterization
    content lines e he
  rw [hsig] at hsig'
  obtain rfl := Option.some_inj.mp hsig'
  constructor
  · intro hterm
    rw [hend]
    unfold findElementEnd
    rw [if_pos hterm]
    omega
  · intro hterm hscan
    rw [hend]
    unfold findElementEnd
    rw [if_neg (by simp [hterm]), hscan]
    dsimp only
    have : min (e.line_start - 1 + 20) lines.length ≤ e.line_start - 1 + 20 :=
      Nat.min_le_left _ _
    omega

set_option maxRecDepth 10000 in
/-- C4 counterexample: the declaration `pub fn f();` ends with `";"` and
yields an element with `line_end = line_start = 1`, refuting the claimed
`line_end = line_start + 1`. -/
theorem C4_counterexample :
    ∃ e ∈ rustExtractElements "pub fn f();" (pySplitNl "pub fn f();"),
      e.signature = some "pub fn f();" ∧
        pyEndsWith "pub fn f();" ";" = true ∧ e.line_end ≠ e.line_start + 1 := by
  decide

set_option maxRecDepth 10000 in
/-- C4 witness: the amended statement at a concrete terminated declaration
(`line_end = line_start`) and at a concrete unbalanced block. -/
theorem C4_witness :
    (∃ e ∈ rustExtractElements "const X: u32 = 1;" (pySplitNl "const X: u32 = 1;"),
      e.line_end = e.line_start) ∧
    (∃ e ∈ rustExtractElements "fn g() \x7b" (pySplitNl "fn g() \x7b"),
      e.line_end ≤ e.line_start + 20) := by
  constructor
  · have hex : ∃ e ∈ rustExtractElements "const X: u32 = 1;"
        (pySplitNl "const X: u32 = 1;"), e.signature = some "const X: u32 = 1;" := by
      decide
    obtain ⟨e, he, hsig⟩ := hex
    exact ⟨e, he, (C4_element_end_amended _ _ e he _ hsig).1 (by decide)⟩
  · have hex : ∃ e ∈ rustExtractElements "fn g() \x7b" (pySplitNl "fn g() \x7b"),
        e.signature = some "fn g() \x7b" ∧ e.line_start = 1 := by
      decide
    obtain ⟨e, he, hsig, hls⟩ := hex
    refine ⟨e, he, (C4_element_end_amended _ _ e he _ hsig).2 (by decide) ?_⟩
    rw [hls]
    decide

/-! ## C9 — duplicate-freedom of `calls` -/

/-- Elements of a successful extraction come from per-node creation. -/
theorem mem_collectElements :
    ∀ (l : List (Except String (Option CodeElement))) (es : List CodeElement),
      collectElements l = .ok es → ∀ e ∈ es, .ok (some e) ∈ l := by
  intro l
  induction l with
  | nil =>
    intro es h e he
    simp only [collectElements] at h
    obtain rfl := (Except.ok.injEq .. ▸ h)
    exact absurd he (by simp)
  | cons x t ih =>
    intro es h e he
    match x with
    | .error msg => simp [collectElements] at h
    | .ok none =>
      simp only [collectElements] at h
      exact List.mem_cons_of_mem _ (ih es h e he)
    | .ok (some el) =>
      simp only [collectElements] at h
      match ht : collectElements t with
      | .error msg => rw [ht] at h; simp [Except.map] at h
      | .ok es' =>
        rw [ht] at h
        simp only [Except.map, Except.ok.injEq] at h
        subst h
        rcases List.mem_cons.mp he with rfl | hmem
        · exact List.mem_cons_self _ _
        · exact List.mem_cons_of_mem _ (ih es' ht e hmem)

/-- Every element of the heuristic extraction has duplicate-free `calls`
(they are drawn from a set). -/
theorem rustExtractElements_calls_nodup :
    ∀ (content : String) (lines : List String) (e : CodeElement),
      e ∈ rustExtractElements content lines → e.calls.Nodup := by
  intro content lines e he
  simp only [rustExtractElements, List.mem_flatMap] at he
  obtain ⟨⟨i, line⟩, _, he2⟩ := he
  split at he2
  · exact absurd he2 (by simp)
  · simp only [List.mem_filterMap] at he2
    obtain ⟨p, _, hpe⟩ := he2
    rw [Option.map_eq_some'] at hpe
    obtain ⟨nm, _, hbuild⟩ := hpe
    rw [← hbuild]
    simp only [rustBuildElement]
    exact List.Nodup.filter _ (List.nodup_dedup _)

/-- A variable element never records calls. -/
theorem createVariableElement_calls :
    ∀ (content : String) (n : PyNode) (e : CodeElement),
      createVariableElement content n = some e → e.calls = [] := by
  intro content n e h
  unfold createVariableElement at h
  match n with
  | .assign targets v lineno =>
    match targets with
    | .cons (.name var) .nil =>
      simp only at h
      split at h
      · obtain rfl := Option.some_inj.mp h
        rfl
      · exact absurd h (by simp)
    | .nil => exact absurd h (by simp)
    | .cons (.name _) (.cons _ _) => exact absurd h (by simp)
    | .cons (.module _) _ => exact absurd h (by simp)
    | .cons (.functionDef _ _ _ _ _ _) _ => exact absurd h (by simp)
    | .cons (.asyncFunctionDef _ _ _ _ _ _) _ => exact absurd h (by simp)
    | .cons (.classDef _ _ _ _ _ _) _ => exact absurd h (by simp)
    | .cons (.assign _ _ _) _ => exact absurd h (by simp)
    | .cons (.annAssign _ _ _ _) _ => exact absurd h (by simp)
    | .cons (.ifStmt _ _ _) _ => exact absurd h (by simp)
    | .cons (.compare _ _) _ => exact absurd h (by simp)
    | .cons (.constant _) _ => exact absurd h (by simp)
    | .cons (.attribute _ _) _ => exact absurd h (by simp)
    | .cons (.call _ _) _ => exact absurd h (by simp)
    | .cons (.exprStmt _) _ => exact absurd h (by simp)
    | .cons (.importStmt _ _) _ => exact absurd h (by simp)
    | .cons (.importFrom _ _ _) _ => exact absurd h (by simp)
    | .cons .pass _ => exact absurd h (by simp)
  | .annAssign (.name var) ann v lineno =>
    simp only at h
    split at h
    · obtain rfl := Option.some_inj.mp h
      rfl
    · exact absurd h (by simp)
  | .module _ => exact absurd h (by simp)
  | .functionDef _ _ _ _ _ _ => exact absurd h (by simp)
  | .asyncFunctionDef _ _ _ _ _ _ => exact absurd h (by simp)
  | .classDef _ _ _ _ _ _ => exact absurd h (by simp)
  | .annAssign (.module _) _ _ _ => exact absurd h (by simp)
  | .annAssign (.functionDef _ _ _ _ _ _) _ _ _ => exact absurd h (by simp)
  | .annAssign (.asyncFunctionDef _ _ _ _ _ _) _ _ _ => exact absurd h (by simp)
  | .annAssign (.classDef _ _ _ _ _ _) _ _ _ => exact absurd h (by simp)
  | .annAssign (.assign _ _ _) _ _ _ => exact absurd h (by simp)
  | .annAssign (.annAssign _ _ _ _) _ _ _ => exact absurd h (by simp)
  | .annAssign (.ifStmt _ _ _) _ _ _ => exact absurd h (by simp)
  | .annAssign (.compare _ _) _ _ _ => exact absurd h (by simp)
  | .annAssign (.constant _) _ _ _ => exact absurd h (by simp)
  | .annAssign (.attribute _ _) _ _ _ => exact absurd h (by simp)
  | .annAssign (.call _ _) _ _ _ => exact absurd h (by simp)
  | .annAssign (.exprStmt _) _ _ _ => exact absurd h (by simp)
  | .annAssign (.importStmt _ _) _ _ _ => exact absurd h (by simp)
  | .annAssign (.importFrom _ _ _) _ _ _ => exact absurd h (by simp)
  | .annAssign .pass _ _ _ => exact absurd h (by simp)
  | .ifStmt _ _ _ => exact absurd h (by simp)
  | .compare _ _ => exact absurd h (by simp)
  | .name _ => exact absurd h (by simp)
  | .constant _ => exact absurd h (by simp)
  | .attribute _ _ => exact absurd h (by simp)
  | .call _ _ => exact absurd h (by simp)
  | .exprStmt _ => exact absurd h (by simp)
  | .importStmt _ _ => exact absurd h (by simp)
  | .importFrom _ _ _ => exact absurd h (by simp)
  | .pass => exact absurd h (by simp)

/-- A class element created by `_create_class_element` is typed `"class"`. -/
theorem createClassElement_type :
    ∀ (content nm : String) (bases body decs : PyNodes) (l : Nat)
      (e' : Option Nat) (e : CodeElement),
      createClassElement content nm bases body decs l e' = some e →
      e.element_type = "class" := by
  intro content nm bases body decs l e' e h
  unfold createClassElement at h
  dsimp only at h
  match hj : pyJoinOpt (List.map getNameFromNode bases.toList) with
  | none => rw [hj] at h; exact absurd h (by simp)
  | some joined =>
    rw [hj] at h
    simp only [Option.some_inj] at h
    rw [← h]

/-- Non-class elements of the AST engine's code analysis have duplicate-free
`calls`. -/
theorem analyzePythonCode_calls_nodup :
    ∀ (parse : String → Except String PyNode) (fs : String → Bool)
      (input : PluginInput) (out : PluginOutput) (e : CodeElement),
      analyzePythonCode parse fs input = .ok out → e ∈ out.elements →
      e.element_type ≠ "class" → e.calls.Nodup := by
  intro parse fs input out e h he hcl
  unfold analyzePythonCode at h
  match hp : parse input.content with
  | .error msg =>
    rw [hp] at h
    simp only [Except.ok.injEq] at h
    rw [← h] at he
    exact absurd he (by simp)
  | .ok tree =>
    rw [hp] at h
    dsimp only at h
    match hex : pyExtractElements tree input.content with
    | .error msg => rw [hex] at h; exact absurd h (by simp)
    | .ok elements =>
      rw [hex] at h
      simp only [Except.ok.injEq] at h
      rw [← h] at he
      simp only at he
      have hx := mem_collectElements _ _ hex e he
      simp only [List.mem_map] at hx
      obtain ⟨node, _, hcreate⟩ := hx
      match node with
      | .functionDef nm args body decs l el =>
        simp only [createElementFor, Except.ok.injEq, Option.some_inj] at hcreate
        rw [← hcreate]
        simp only [createFunctionElement, pyListSet]
        exact List.nodup_dedup _
      | .asyncFunctionDef nm args body decs l el =>
        simp only [createElementFor, Except.ok.injEq, Option.some_inj] at hcreate
        rw [← hcreate]
        simp only [createFunctionElement, pyListSet]
        exact List.nodup_dedup _
      | .classDef nm bases body decs l el =>
        simp only [createElementFor] at hcreate
        match hc : createClassElement input.content nm bases body decs l el with
        | some cel =>
          rw [hc] at hcreate
          simp only [Except.ok.injEq, Option.some_inj] at hcreate
          rw [hcreate] at hc
          exact absurd (createClassElement_type _ _ _ _ _ _ _ _ hc) hcl
        | none => rw [hc] at hcreate; exact absurd hcreate (by simp)
      | .assign targets v l =>
        simp only [createElementFor, Except.ok.injEq] at hcreate
        rw [createVariableElement_calls input.content _ e hcreate]
        exact List.nodup_nil
      | .annAssign t ann v l =>
        simp only [createElementFor, Except.ok.injEq] at hcreate
        rw [createVariableElement_calls input.content _ e hcreate]
        exact List.nodup_nil
      | .module _ => exact absurd hcreate (by simp [createElementFor])
      | .ifStmt _ _ _ => exact absurd hcreate (by simp [createElementFor])
      | .compare _ _ => exact absurd hcreate (by simp [createElementFor])
      | .name _ => exact absurd hcreate (by simp [createElementFor])
      | .constant _ => exact absurd hcreate (by simp [createElementFor])
      | .attribute _ _ => exact absurd hcreate (by simp [createElementFor])
      | .call _ _ => exact absurd hcreate (by simp [createElementFor])
      | .exprStmt _ => exact absurd hcreate (by simp [createElementFor])
      | .importStmt _ _ => exact absurd hcreate (by simp [createElementFor])
      | .importFrom _ _ _ => exact absurd hcreate (by simp [createElementFor])
      | .pass => exact absurd hcreate (by simp [createElementFor])

/-- C9 (amended): every element produced by the heuristic (Rust) engine's
analyze, and every non-class element produced by the AST (Python) engine's
analyze, has a duplicate-free `calls` list.  (Class elements' `calls` are the
class's method names in order, which may repeat — see the counterexample.) -/
theorem C9_calls_nodup_amended :
    (∀ (fs : String → Bool) (input : PluginInput) (e : CodeElement),
      e ∈ (rustAnalyze fs input).elements → e.calls.Nodup) ∧
    (∀ (parse : String → Except String PyNode) (fs : String → Bool)
        (input : PluginInput) (out : PluginOutput) (e : CodeElement),
      pythonAnalyze parse fs input = .ok out → e ∈ out.elements →
      e.element_type ≠ "class" → e.calls.Nodup) := by
  constructor
  · intro fs input e he
    unfold rustAnalyze at he
    dsimp only at he
    split at he
    · simp only [analyzeRustCode] at he
      exact rustExtractElements_calls_nodup _ _ e he
    · split at he
      · exact absurd he (by simp [analyzeCargoToml])
      · split at he
        · exact absurd he (by simp [analyzeCargoLock])
        · simp only [analyzeRustCode] at he
          exact rustExtractElements_calls_nodup _ _ e he
  · intro parse fs input out e h he hcl
    unfold pythonAnalyze at h
    dsimp only at h
    split at h
    · exact analyzePythonCode_calls_nodup parse fs input out e h he hcl
    · split at h
      · simp only [Except.ok.injEq] at h
        rw [← h] at he
        exact absurd he (by simp [analyzeRequirementsTxt])
      · split at h
        · unfold analyzeSetupPy at h
          match hpc : analyzePythonCode parse fs input with
          | .error msg => rw [hpc] at h; exact absurd h (by simp)
          | .ok result =>
            rw [hpc] at h
            simp only [Except.ok.injEq] at h
            rw [← h] at he
            simp only at he
            exact analyzePythonCode_calls_nodup parse fs input result e hpc
              he hcl
        · split at h
          · simp only [Except.ok.injEq] at h
            rw [← h] at he
            exact absurd he (by simp [analyzePyprojectToml])
          · exact analyzePythonCode_calls_nodup parse fs input out e h he hcl

set_option maxRecDepth 100000 in
/-- C9 counterexample: on a class that defines `f` twice, the AST engine's
analyze succeeds and yields a class element whose `calls` list is
`["f", "f"]` — it contains duplicates. -/
theorem C9_counterexample :
    (pythonAnalyze (fun _ => .ok dupMethodsTree) emptyFs dupMethodsInput).isOk
        = true ∧
      ∃ e ∈ exceptElements
          (pythonAnalyze (fun _ => .ok dupMethodsTree) emptyFs dupMethodsInput),
        e.element_type = "class" ∧ e.calls = ["f", "f"] ∧ ¬ e.calls.Nodup := by
  constructor
  · decide
  · decide

set_option maxRecDepth 100000 in
/-- C9 witness: the amended statement at concrete analyses of both engines. -/
theorem C9_witness :
    (∀ e ∈ (rustAnalyze emptyFs
        { file_path := "/proj/a.rs", relative_path := "a.rs",
          content := "pub fn f() { g(); g(); }", project_root := "/proj",
          cache_dir := "/c" }).elements, e.calls.Nodup) ∧
    (∀ out, pythonAnalyze (fun _ => .ok dupMethodsTree) emptyFs dupMethodsInput
        = .ok out →
      ∀ e ∈ out.elements, e.element_type ≠ "class" → e.calls.Nodup) := by
  constructor
  · intro e he
    exact C9_calls_nodup_amended.1 emptyFs _ e he
  · intro out h e he hcl
    exact C9_calls_nodup_amended.2 _ emptyFs _ out e h he hcl

/-! ## C1 — parse-failure degradation of the AST engine -/

/-- C1 (amended): for every input routed to the AST path — suffix `.py`, or a
filename that is none of the recognized manifest names — whose content fails
to parse, `analyze` returns (never raises) a `PluginOutput` with `elements`,
`imports`, `exports` and `relationships` all empty and
`file_summary = "Syntax error in Python file: <message>"`. -/
theorem C1_syntax_error_degradation :
    ∀ (parse : String → Except String PyNode) (fs : String → Bool)
      (input : PluginInput) (msg : String),
      (pyPathSuffix input.file_path = ".py" ∨
        (pyLower (pyPathName input.file_path) ≠ "requirements.txt" ∧
         pyLower (pyPathName input.file_path) ≠ "setup.py" ∧
         pyLower (pyPathName input.file_path) ≠ "pyproject.toml")) →
      parse input.content = .error msg →
      pythonAnalyze parse fs input = .ok
        { file_path := input.file_path, file_hash := "", elements := [],
          imports := [], exports := [], relationships := [],
          external_dependencies := [],
          file_summary := some ("Syntax error in Python file: " ++ msg),
          token_info := some
            { total_tokens := estimate_tokens input.content, code_tokens := 0,
              documentation_tokens := 0, comment_tokens := 0 } } := by
  intro parse fs input msg hroute hparse
  have hcode : analyzePythonCode parse fs input = .ok
      { file_path := input.file_path, file_hash := "", elements := [],
        imports := [], exports := [], relationships := [],
        external_dependencies := [],
        file_summary := some ("Syntax error in Python file: " ++ msg),
        token_info := some
          { total_tokens := estimate_tokens input.content, code_tokens := 0,
            documentation_tokens := 0, comment_tokens := 0 } } := by
    unfold analyzePythonCode
    rw [hparse]
  unfold pythonAnalyze
  dsimp only
  rcases hroute with hpy | ⟨h1, h2, h3⟩
  · rw [if_pos hpy]
    exact hcode
  · by_cases hpy : pyPathSuffix input.file_path = ".py"
    · rw [if_pos hpy]
      exact hcode
    · rw [if_neg hpy, if_neg h1, if_neg h2, if_neg h3]
      exact hcode

/-- C1 counterexample: an input named `requirements.txt` whose content fails
to parse as Python is routed to the manifest parser; `analyze` returns empty
collections but a summary with no syntax-error message (and even a bogus
dependency parsed from the unparseable line), refuting the claim for "every
input whose content fails to parse". -/
theorem C1_counterexample :
    alwaysFailParse reqRouteInput.content =
        .error "invalid syntax (<unknown>, line 1)" ∧
      (pythonAnalyze alwaysFailParse emptyFs reqRouteInput).toOption.map
          (fun out => (out.elements, out.relationships, out.file_summary)) =
        some ([], [], some "Python requirements with 1 dependencies") ∧
      pyIn "Syntax error" "Python requirements with 1 dependencies" = false := by
  refine ⟨rfl, by decide, by decide⟩

/-- C1 witness: the amended statement at a concrete `.py` input with a
failing parse. -/
theorem C1_witness :
    pythonAnalyze alwaysFailParse emptyFs astRouteInput = .ok
      { file_path := "/proj/m.py", file_hash := "", elements := [],
        imports := [], exports := [], relationships := [],
        external_dependencies := [],
        file_summary := some
          ("Syntax error in Python file: invalid syntax (<unknown>, line 1)"),
        token_info := some
          { total_tokens := 1, code_tokens := 0,
            documentation_tokens := 0, comment_tokens := 0 } } := by
  have h := C1_syntax_error_degradation alwaysFailParse emptyFs astRouteInput
    "invalid syntax (<unknown>, line 1)" (Or.inl (by decide)) rfl
  rw [h]
  rfl

/-! ## C5 — complexity is ≥ 1 and monotone under keyword insertion

`calculate_complexity` is `max 1` of a sum of `str.count` values over the
fixed pattern list `cxPatterns`.  The proof of insertion-monotonicity goes
through maximum disjoint-occurrence packings: Python's `str.count` (the
greedy left-to-right non-overlapping count, `cntSub`) both realizes a packing
and dominates every packing; inserting a delimited keyword into the block
destroys at most one packed occurrence in total — two occurrences crossing
the same insertion gap would share two characters, which the pattern list
does not allow — and contributes a fresh occurrence of the inserted
pattern. -/

theorem cntSubAux_drop (p : List Char) :
    ∀ (t : List Char) (s : Nat), cntSubAux p t s = cntSubAux p (t.drop s) 0 := by
  intro t
  induction t with
  | nil => intro s; simp [cntSubAux]
  | cons c t ih =>
    intro s
    match s with
    | 0 => rfl
    | s + 1 => simp only [cntSubAux, List.drop_succ_cons]; exact ih s

theorem cntSub_nil {p : List Char} (hp : p ≠ []) : cntSub p [] = 0 := by
  unfold cntSub
  rw [if_neg (by simpa using hp)]
  rfl

theorem cntSub_cons_pos {p : List Char} (hp : p ≠ []) {c : Char} {t : List Char}
    (hpre : p.isPrefixOf (c :: t) = true) :
    cntSub p (c :: t) = 1 + cntSub p ((c :: t).drop p.length) := by
  unfold cntSub
  rw [if_neg (by simpa using hp), if_neg (by simpa using hp)]
  show cntSubAux p (c :: t) 0 = 1 + cntSubAux p ((c :: t).drop p.length) 0
  rw [show cntSubAux p (c :: t) 0 =
      if p.isPrefixOf (c :: t) then 1 + cntSubAux p t (p.length - 1)
      else cntSubAux p t 0 from rfl]
  rw [if_pos hpre, cntSubAux_drop]
  have hl : 1 ≤ p.length := by
    cases p with
    | nil => exact absurd rfl hp
    | cons _ _ => simp
  congr 1
  congr 1
  rw [show (c :: t).drop p.length = t.drop (p.length - 1) by
    cases hn : p.length with
    | zero => omega
    | succ n => simp [List.drop_succ_cons]]

theorem cntSub_cons_neg {p : List Char} (hp : p ≠ []) {c : Char} {t : List Char}
    (hpre : ¬ p.isPrefixOf (c :: t) = true) :
    cntSub p (c :: t) = cntSub p t := by
  unfold cntSub
  rw [if_neg (by simpa using hp), if_neg (by simpa using hp)]
  show (if p.isPrefixOf (c :: t) then 1 + cntSubAux p t (p.length - 1)
      else cntSubAux p t 0) = cntSubAux p t 0
  rw [if_neg hpre]

/-! ### Occurrence and packing lemmas -/

theorem occursAt_iff {p t : List Char} {i : Nat} :
    occursAt p t i ↔ p <+: t.drop i := by
  unfold occursAt
  exact List.isPrefixOf_iff_prefix

theorem not_occursAt_nil {p : List Char} (hp : p ≠ []) (i : Nat) :
    ¬ occursAt p [] i := by
  intro h
  rw [occursAt_iff, List.drop_nil] at h
  exact hp (List.prefix_nil.mp h)

theorem occursAt_drop {p t : List Char} {k j : Nat} :
    occursAt p (t.drop k) j ↔ occursAt p t (k + j) := by
  unfold occursAt
  rw [List.drop_drop]

theorem occursAt_cons_succ {p : List Char} {c : Char} {t : List Char} {i : Nat} :
    occursAt p (c :: t) (i + 1) ↔ occursAt p t i := by
  unfold occursAt
  rw [List.drop_succ_cons]

/-- An occurrence fitting inside the left part of an append is an occurrence
in the left part extended by anything. -/
theorem occursAt_left {p L R : List Char} {i : Nat}
    (h : occursAt p (L ++ R) i) (hle : i + p.length ≤ L.length) :
    ∀ R' : List Char, occursAt p (L ++ R') i := by
  intro R'
  rw [occursAt_iff] at h ⊢
  rw [List.drop_append_eq_append_drop] at h ⊢
  have hi : i ≤ L.length := by omega
  have hpfx : p <+: L.drop i := by
    have hlen : p.length ≤ (L.drop i).length := by
      rw [List.length_drop]; omega
    rw [List.prefix_iff_eq_take] at h
    rw [List.take_append_eq_append_take] at h
    rw [List.prefix_iff_eq_take]
    have : p.length - (L.drop i).length = 0 := by omega
    rw [this] at h
    simpa using h
  exact hpfx.trans (List.prefix_append _ _)

/-- An occurrence at or past the append boundary lives in the right part. -/
theorem occursAt_right {p L R : List Char} {i : Nat} (hge : L.length ≤ i) :
    occursAt p (L ++ R) i ↔ occursAt p R (i - L.length) := by
  unfold occursAt
  rw [List.drop_append_eq_append_drop]
  rw [show L.drop i = [] from List.drop_eq_nil_of_le hge]
  rfl

theorem isPacking_sub {p t : List Char} {xs : List Nat}
    (h : IsPacking p t xs) {ys : List Nat} (hsub : ys.Sublist xs) :
    IsPacking p t ys :=
  ⟨h.1.sublist hsub, fun i hi => h.2 i (hsub.mem hi)⟩

theorem isPacking_shift_up {p t : List Char} {ys : List Nat} (k : Nat)
    (h : IsPacking p (t.drop k) ys) : IsPacking p t (ys.map (k + ·)) := by
  constructor
  · rw [List.pairwise_map]
    exact h.1.imp (by intro a b hab; omega)
  · intro i hi
    rw [List.mem_map] at hi
    obtain ⟨j, hj, rfl⟩ := hi
    exact occursAt_drop.mp (h.2 j hj)

theorem isPacking_shift_down {p t : List Char} {xs : List Nat} (k : Nat)
    (h : IsPacking p t xs) (hge : ∀ i ∈ xs, k ≤ i) :
    IsPacking p (t.drop k) (xs.map (· - k)) := by
  constructor
  · rw [List.pairwise_map]
    apply List.Pairwise.imp_of_mem ?_ h.1
    intro a b ha hb hab
    have := hge a ha
    have := hge b hb
    omega
  · intro i hi
    rw [List.mem_map] at hi
    obtain ⟨j, hj, rfl⟩ := hi
    rw [occursAt_drop]
    have := hge j hj
    rw [show k + (j - k) = j by omega]
    exact h.2 j hj

/-! ### Greedy count: optimality and realization -/

/-- Python's greedy count dominates every packing. -/
theorem cntSub_ge_packing {p : List Char} (hp : p ≠ []) :
    ∀ (t : List Char) (xs : List Nat), IsPacking p t xs →
      xs.length ≤ cntSub p t := by
  suffices H : ∀ (n : Nat) (t : List Char) (xs : List Nat), t.length ≤ n →
      IsPacking p t xs → xs.length ≤ cntSub p t by
    intro t xs h
    exact H t.length t xs le_rfl h
  intro n
  induction n with
  | zero =>
    intro t xs hlen hpack
    have ht : t = [] := List.length_eq_zero.mp (by omega)
    subst ht
    match xs with
    | [] => simp
    | i :: _ => exact absurd (hpack.2 i (by simp)) (not_occursAt_nil hp i)
  | succ n ih =>
    intro t xs hlen hpack
    match t with
    | [] =>
      match xs with
      | [] => simp
      | i :: _ => exact absurd (hpack.2 i (by simp)) (not_occursAt_nil hp i)
    | c :: t' =>
      by_cases hpre : p.isPrefixOf (c :: t') = true
      · rw [cntSub_cons_pos hp hpre]
        match xs with
        | [] => simp
        | i :: rest =>
          obtain ⟨hpw, hocc⟩ := hpack
          rw [List.pairwise_cons] at hpw
          have hrest : IsPacking p (c :: t') rest :=
            ⟨hpw.2, fun j hj => hocc j (List.mem_cons_of_mem _ hj)⟩
          have hge : ∀ j ∈ rest, p.length ≤ j := by
            intro j hj
            have := hpw.1 j hj
            omega
          have hshift := isPacking_shift_down p.length hrest hge
          have hlp : 1 ≤ p.length := by
            cases p with
            | nil => exact absurd rfl hp
            | cons _ _ => simp
          have hlen' : ((c :: t').drop p.length).length ≤ n := by
            rw [List.length_drop]
            simp only [List.length_cons] at hlen ⊢
            omega
          have := ih _ _ hlen' hshift
          rw [List.length_map] at this
          simp only [List.length_cons]
          omega
      · rw [cntSub_cons_neg hp hpre]
        have hge : ∀ i ∈ xs, 1 ≤ i := by
          intro i hi
          rcases Nat.eq_zero_or_pos i with rfl | h1
          · have := hpack.2 0 hi
            unfold occursAt at this
            rw [List.drop_zero] at this
            exact absurd this hpre
          · exact h1
        have hshift := isPacking_shift_down 1 hpack hge
        rw [List.drop_succ_cons, List.drop_zero] at hshift
        have hlen' : t'.length ≤ n := by
          simp only [List.length_cons] at hlen
          omega
        have := ih _ _ hlen' hshift
        rw [List.length_map] at this
        exact this

/-- Python's greedy count is realized by a packing. -/
theorem cntSub_realized {p : List Char} (hp : p ≠ []) :
    ∀ t : List Char, ∃ xs, IsPacking p t xs ∧ xs.length = cntSub p t := by
  suffices H : ∀ (n : Nat) (t : List Char), t.length ≤ n →
      ∃ xs, IsPacking p t xs ∧ xs.length = cntSub p t by
    intro t
    exact H t.length t le_rfl
  intro n
  induction n with
  | zero =>
    intro t hlen
    have ht : t = [] := List.length_eq_zero.mp (by omega)
    subst ht
    exact ⟨[], ⟨List.Pairwise.nil, by simp⟩, by rw [cntSub_nil hp]; rfl⟩
  | succ n ih =>
    intro t hlen
    match t with
    | [] => exact ⟨[], ⟨List.Pairwise.nil, by simp⟩, by rw [cntSub_nil hp]; rfl⟩
    | c :: t' =>
      by_cases hpre : p.isPrefixOf (c :: t') = true
      · have hlp : 1 ≤ p.length := by
          cases p with
          | nil => exact absurd rfl hp
          | cons _ _ => simp
        have hlen' : ((c :: t').drop p.length).length ≤ n := by
          rw [List.length_drop]
          simp only [List.length_cons] at hlen ⊢
          omega
        obtain ⟨ys, hpack, hcnt⟩ := ih _ hlen'
        refine ⟨0 :: ys.map (p.length + ·), ⟨?_, ?_⟩, ?_⟩
        · rw [List.pairwise_cons]
          constructor
          · intro j hj
            rw [List.mem_map] at hj
            obtain ⟨a, _, rfl⟩ := hj
            omega
          · exact (isPacking_shift_up p.length hpack).1
        · intro i hi
          rcases List.mem_cons.mp hi with rfl | hmem
          · unfold occursAt
            rw [List.drop_zero]
            exact hpre
          · exact (isPacking_shift_up p.length hpack).2 i hmem
        · simp only [List.length_cons, List.length_map]
          rw [cntSub_cons_pos hp hpre, hcnt]
          omega
      · have hlen' : t'.length ≤ n := by
          simp only [List.length_cons] at hlen
          omega
        obtain ⟨ys, hpack, hcnt⟩ := ih _ hlen'
        refine ⟨ys.map (1 + ·), ?_, ?_⟩
        · refine isPacking_shift_up (p := p) (t := c :: t') 1 ?_
          rw [List.drop_succ_cons, List.drop_zero]
          exact hpack
        · rw [List.length_map, cntSub_cons_neg hp hpre, hcnt]

/-! ### The counted patterns cannot overlap on two characters

Any two distinct occurrences of counted patterns share at most one
character — checked mechanically over the finite pattern table. -/

set_option maxRecDepth 40000 in
theorem cxPatterns_no_overlap :
    ∀ p ∈ cxPatterns, ∀ q ∈ cxPatterns, ∀ d ∈ List.range p.length,
      2 ≤ p.length - d → ¬(p = q ∧ d = 0) →
      (p.drop d).take (min (p.length - d) q.length) ≠
        q.take (min (p.length - d) q.length) := by
  decide

/-- A prefix agrees with the whole list on any initial segment it covers. -/
theorem take_eq_of_prefix {x z : List Char} (h : x <+: z) {m : Nat}
    (hm : m ≤ x.length) : x.take m = z.take m := by
  rw [List.prefix_iff_eq_take] at h
  conv_lhs => rw [h]
  rw [List.take_take, min_eq_left hm]

/-- Two occurrences overlapping on at least two characters agree on their
overlap. -/
theorem cross_agree {p q u : List Char} {i j : Nat}
    (hpo : occursAt p u i) (hqo : occursAt q u j) (hij : i ≤ j)
    (hover : j + 2 ≤ i + p.length) :
    (p.drop (j - i)).take (min (p.length - (j - i)) q.length) =
      q.take (min (p.length - (j - i)) q.length) := by
  rw [occursAt_iff] at hpo hqo
  obtain ⟨rest, hrest⟩ := hpo
  set d := j - i with hd
  have hdp : d + 2 ≤ p.length := by omega
  have hdrop : u.drop j = p.drop d ++ rest := by
    have h1 : u.drop j = (u.drop i).drop d := by
      rw [List.drop_drop]
      congr 1
      omega
    rw [h1, ← hrest, List.drop_append_eq_append_drop,
      show d - p.length = 0 by omega, List.drop_zero]
  rw [hdrop] at hqo
  have hpd : p.drop d <+: p.drop d ++ rest := List.prefix_append _ _
  have h1 := take_eq_of_prefix hpd
    (m := min (p.length - d) q.length) (by rw [List.length_drop]; omega)
  have h2 := take_eq_of_prefix hqo
    (m := min (p.length - d) q.length) (Nat.min_le_right _ _)
  rw [h1, h2]

/-- Uniqueness of the crossing occurrence, assuming `i ≤ j`. -/
theorem cross_unique_aux {L R p q : List Char} {i j : Nat}
    (hpm : p ∈ cxPatterns) (hqm : q ∈ cxPatterns)
    (hpo : occursAt p (L ++ R) i) (_hi1 : i < L.length)
    (hi2 : L.length < i + p.length)
    (hqo : occursAt q (L ++ R) j) (hj1 : j < L.length)
    (hj2 : L.length < j + q.length) (hij : i ≤ j) : p = q ∧ i = j := by
  by_contra hne
  have hover : j + 2 ≤ i + p.length := by omega
  have hagree := cross_agree hpo hqo hij hover
  have hd2 : 2 ≤ p.length - (j - i) := by omega
  have hdm : j - i ∈ List.range p.length := by
    rw [List.mem_range]
    omega
  refine cxPatterns_no_overlap p hpm q hqm (j - i) hdm hd2 ?_ hagree
  rintro ⟨rfl, hd0⟩
  exact hne ⟨rfl, by omega⟩

/-- At most one packed-pattern occurrence crosses the insertion gap. -/
theorem cross_unique {L R p q : List Char} {i j : Nat}
    (hpm : p ∈ cxPatterns) (hqm : q ∈ cxPatterns)
    (hpo : occursAt p (L ++ R) i) (hi1 : i < L.length)
    (hi2 : L.length < i + p.length)
    (hqo : occursAt q (L ++ R) j) (hj1 : j < L.length)
    (hj2 : L.length < j + q.length) : p = q ∧ i = j := by
  rcases Nat.le_total i j with hij | hij
  · exact cross_unique_aux hpm hqm hpo hi1 hi2 hqo hj1 hj2 hij
  · obtain ⟨h1, h2⟩ := cross_unique_aux hqm hpm hqo hj1 hj2 hpo hi1 hi2 hij
    exact ⟨h1.symm, h2.symm⟩

/-! ### Small counting lemmas -/

theorem length_filter_split (P : α → Bool) (l : List α) :
    l.length = (l.filter P).length + (l.filter fun x => !P x).length := by
  induction l with
  | nil => rfl
  | cons x t ih =>
    by_cases h : P x = true
    · simp [List.filter_cons, h, ih]
      omega
    · simp only [Bool.not_eq_true] at h
      simp [List.filter_cons, h, ih]
      omega

theorem packing_nodup {p t : List Char} {xs : List Nat} (hp : p ≠ [])
    (hpack : IsPacking p t xs) : xs.Nodup := by
  have hlp : 1 ≤ p.length := by
    cases p with
    | nil => exact absurd rfl hp
    | cons _ _ => simp
  exact hpack.1.imp (by intro a b hab; omega)

theorem length_le_one_of_all_eq {l : List Nat} {v : Nat} (hnd : l.Nodup)
    (hall : ∀ x ∈ l, x = v) : l.length ≤ 1 := by
  match l with
  | [] => simp
  | [x] => simp
  | x :: y :: t =>
    exfalso
    rw [List.nodup_cons] at hnd
    apply hnd.1
    rw [hall x (by simp), hall y (by simp)]
    simp

theorem sum_map_add {α M : Type} [AddCommMonoid M] (l : List α) (f g : α → M) :
    (l.map fun x => f x + g x).sum = (l.map f).sum + (l.map g).sum := by
  induction l with
  | nil => simp
  | cons x t ih =>
    simp only [List.map_cons, List.sum_cons, ih]
    rw [add_add_add_comm]

theorem one_le_sum_map_ite {l : List (List Char)} {pat : List Char}
    (hp : pat ∈ l) :
    1 ≤ (l.map fun p => if p = pat then 1 else 0).sum := by
  induction l with
  | nil => cases hp
  | cons x t ih =>
    simp only [List.map_cons, List.sum_cons]
    rcases List.mem_cons.mp hp with rfl | hmem
    · rw [if_pos rfl]
      omega
    · have := ih hmem
      omega

theorem sum_map_le_one_of_single {α : Type} {l : List α} {c : α → Nat}
    {p0 : α} (hnd : l.Nodup) (hz : ∀ p ∈ l, p ≠ p0 → c p = 0)
    (h0 : c p0 ≤ 1) : (l.map c).sum ≤ 1 := by
  induction l with
  | nil => simp
  | cons x t ih =>
    rw [List.nodup_cons] at hnd
    simp only [List.map_cons, List.sum_cons]
    by_cases hx : x = p0
    · subst hx
      have hzero : (t.map c).sum = 0 := List.sum_eq_zero (by
        intro y hy
        rw [List.mem_map] at hy
        obtain ⟨p, hp, rfl⟩ := hy
        exact hz p (List.mem_cons_of_mem _ hp) fun he => hnd.1 (he ▸ hp))
      rw [hzero]
      omega
    · have h1 : c x = 0 := hz x (List.mem_cons_self _ _) hx
      have h2 := ih hnd.2 fun p hp => hz p (List.mem_cons_of_mem _ hp)
      omega

set_option maxRecDepth 40000 in
theorem cxPatterns_nodup : cxPatterns.Nodup := by
  decide

set_option maxRecDepth 40000 in
theorem cxPatterns_ne_nil : ∀ p ∈ cxPatterns, p ≠ ([] : List Char) := by
  decide

/-- Every packing position is inside the left part, inside the right part,
or crossing the boundary; the three classes partition the packing. -/
theorem packing_split_count {p : List Char} (hp1 : 1 ≤ p.length)
    (L : List Char) (xs : List Nat) :
    xs.length =
      (xs.filter fun i => decide (i + p.length ≤ L.length)).length +
      (xs.filter fun i => decide (L.length ≤ i)).length +
      (xs.filter fun i =>
        decide (i < L.length) && decide (L.length < i + p.length)).length := by
  have h1 := length_filter_split (fun i => decide (i + p.length ≤ L.length)) xs
  have h2 := length_filter_split (fun i => decide (L.length ≤ i))
    (xs.filter fun i => !decide (i + p.length ≤ L.length))
  rw [List.filter_filter, List.filter_filter] at h2
  have e1 : xs.filter (fun a =>
        decide (L.length ≤ a) && !decide (a + p.length ≤ L.length))
      = xs.filter fun i => decide (L.length ≤ i) := by
    apply List.filter_congr
    intro x _
    rw [Bool.eq_iff_iff]
    simp only [Bool.and_eq_true, Bool.not_eq_true', decide_eq_true_eq,
      decide_eq_false_iff_not]
    omega
  have e2 : xs.filter (fun a =>
        (!decide (L.length ≤ a)) && !decide (a + p.length ≤ L.length))
      = xs.filter fun i =>
          decide (i < L.length) && decide (L.length < i + p.length) := by
    apply List.filter_congr
    intro x _
    rw [Bool.eq_iff_iff]
    simp only [Bool.and_eq_true, Bool.not_eq_true', decide_eq_true_eq,
      decide_eq_false_iff_not]
    omega
  rw [e1, e2] at h2
  omega

/-- Transferring a packing across an insertion: the occurrences confined to
the left part keep their position, those confined to the right part shift
by the inserted length; the result is a packing of the extended text. -/
theorem packing_transfer (pat : List Char) {p L R : List Char}
    {xs : List Nat} (h : IsPacking p (L ++ R) xs) :
    IsPacking p (L ++ (pat ++ R))
      ((xs.filter fun i => decide (i + p.length ≤ L.length)) ++
        ((xs.filter fun i => decide (L.length ≤ i)).map (· + pat.length))) := by
  obtain ⟨hpw, hocc⟩ := h
  constructor
  · rw [List.pairwise_append]
    refine ⟨hpw.sublist (List.filter_sublist _), ?_, ?_⟩
    · rw [List.pairwise_map]
      exact (hpw.sublist (List.filter_sublist _)).imp (by intro a b hab; omega)
    · intro a ha b' hb'
      rw [List.mem_filter] at ha
      rw [List.mem_map] at hb'
      obtain ⟨b, hb, rfl⟩ := hb'
      rw [List.mem_filter] at hb
      have ha2 := of_decide_eq_true ha.2
      have hb2 := of_decide_eq_true hb.2
      omega
  · intro i hi
    rw [List.mem_append] at hi
    rcases hi with hiA | hiB
    · rw [List.mem_filter] at hiA
      exact occursAt_left (hocc i hiA.1) (of_decide_eq_true hiA.2) _
    · rw [List.mem_map] at hiB
      obtain ⟨b, hb, rfl⟩ := hiB
      rw [List.mem_filter] at hb
      have hbL := of_decide_eq_true hb.2
      have hR := (occursAt_right hbL).mp (hocc b hb.1)
      rw [occursAt_right (by omega : L.length ≤ b + pat.length)]
      rw [occursAt_right (by omega : pat.length ≤ b + pat.length - L.length)]
      rw [show b + pat.length - L.length - pat.length = b - L.length by omega]
      exact hR

/-- Transferring a packing of the inserted pattern itself additionally
gains the fresh occurrence at the insertion point. -/
theorem packing_transfer_plus {pat L R : List Char} {xs : List Nat}
    (h : IsPacking pat (L ++ R) xs) :
    IsPacking pat (L ++ (pat ++ R))
      ((xs.filter fun i => decide (i + pat.length ≤ L.length)) ++
        (L.length ::
          (xs.filter fun i => decide (L.length ≤ i)).map (· + pat.length))) := by
  obtain ⟨hpw, hocc⟩ := h
  constructor
  · rw [List.pairwise_append]
    refine ⟨hpw.sublist (List.filter_sublist _), ?_, ?_⟩
    · rw [List.pairwise_cons]
      constructor
      · intro b' hb'
        rw [List.mem_map] at hb'
        obtain ⟨b, hb, rfl⟩ := hb'
        rw [List.mem_filter] at hb
        have := of_decide_eq_true hb.2
        omega
      · rw [List.pairwise_map]
        exact (hpw.sublist (List.filter_sublist _)).imp (by intro a b hab; omega)
    · intro a ha b' hb'
      rw [List.mem_filter] at ha
      have ha2 := of_decide_eq_true ha.2
      rcases List.mem_cons.mp hb' with rfl | hb'
      · omega
      · rw [List.mem_map] at hb'
        obtain ⟨b, hb, rfl⟩ := hb'
        rw [List.mem_filter] at hb
        have := of_decide_eq_true hb.2
        omega
  · intro i hi
    rw [List.mem_append] at hi
    rcases hi with hiA | hiB
    · rw [List.mem_filter] at hiA
      exact occursAt_left (hocc i hiA.1) (of_decide_eq_true hiA.2) _
    · rcases List.mem_cons.mp hiB with rfl | hiB
      · rw [occursAt_right le_rfl, Nat.sub_self, occursAt_iff, List.drop_zero]
        exact List.prefix_append _ _
      · rw [List.mem_map] at hiB
        obtain ⟨b, hb, rfl⟩ := hiB
        rw [List.mem_filter] at hb
        have hbL := of_decide_eq_true hb.2
        have hR := (occursAt_right hbL).mp (hocc b hb.1)
        rw [occursAt_right (by omega : L.length ≤ b + pat.length)]
        rw [occursAt_right (by omega : pat.length ≤ b + pat.length - L.length)]
        rw [show b + pat.length - L.length - pat.length = b - L.length by omega]
        exact hR

/-- Across all patterns together, at most one packed occurrence crosses the
insertion boundary: two would have to agree on a two-character overlap. -/
theorem crossing_total_le_one {L R : List Char} (xs : List Char → List Nat)
    (hxs : ∀ p ∈ cxPatterns, IsPacking p (L ++ R) (xs p)) :
    (cxPatterns.map fun p =>
      ((xs p).filter fun i =>
        decide (i < L.length) && decide (L.length < i + p.length)).length).sum
      ≤ 1 := by
  by_cases hall : ∀ p ∈ cxPatterns,
      ((xs p).filter fun i =>
        decide (i < L.length) && decide (L.length < i + p.length)).length = 0
  · have hz : (cxPatterns.map fun p =>
        ((xs p).filter fun i =>
          decide (i < L.length) && decide (L.length < i + p.length)).length).sum
        = 0 := List.sum_eq_zero (by
      intro y hy
      rw [List.mem_map] at hy
      obtain ⟨p, hp, rfl⟩ := hy
      exact hall p hp)
    omega
  · push_neg at hall
    obtain ⟨p0, hp0, hne0⟩ := hall
    obtain ⟨i0, hi0⟩ := List.exists_mem_of_ne_nil
      ((xs p0).filter fun i =>
        decide (i < L.length) && decide (L.length < i + p0.length))
      fun he => hne0 (by rw [he]; rfl)
    rw [List.mem_filter, Bool.and_eq_true, decide_eq_true_eq,
      decide_eq_true_eq] at hi0
    obtain ⟨hi0m, hi0a, hi0b⟩ := hi0
    have hkey : ∀ p ∈ cxPatterns, ∀ i ∈ (xs p).filter fun i =>
        decide (i < L.length) && decide (L.length < i + p.length),
        p = p0 ∧ i = i0 := by
      intro p hp i hi
      rw [List.mem_filter, Bool.and_eq_true, decide_eq_true_eq,
        decide_eq_true_eq] at hi
      obtain ⟨him, hia, hib⟩ := hi
      exact cross_unique hp hp0 ((hxs p hp).2 i him) hia hib
        ((hxs p0 hp0).2 i0 hi0m) hi0a hi0b
    apply sum_map_le_one_of_single cxPatterns_nodup
    · intro p hp hpp0
      rw [List.length_eq_zero, List.eq_nil_iff_forall_not_mem]
      intro i hi
      exact hpp0 (hkey p hp i hi).1
    · have hnodup : ((xs p0).filter fun i =>
          decide (i < L.length) && decide (L.length < i + p0.length)).Nodup :=
        (packing_nodup (cxPatterns_ne_nil p0 hp0) (hxs p0 hp0)).filter _
      exact length_le_one_of_all_eq hnodup fun i hi => (hkey p0 hp0 i hi).2

/-- Inserting one counted pattern into the scored text never decreases the
total greedy count over the pattern table. -/
theorem sum_cntSub_insert_mono (pat L R : List Char)
    (hpat : pat ∈ ctrlPatterns) :
    (cxPatterns.map fun p => cntSub p (L ++ R)).sum ≤
      (cxPatterns.map fun p => cntSub p (L ++ (pat ++ R))).sum := by
  have hpatm : pat ∈ cxPatterns := by
    rw [cxPatterns]
    exact List.mem_append_left _ hpat
  have hreal : ∀ p : List Char, ∃ xs, p ∈ cxPatterns →
      IsPacking p (L ++ R) xs ∧ xs.length = cntSub p (L ++ R) := by
    intro p
    by_cases hp : p ∈ cxPatterns
    · obtain ⟨xs, h1, h2⟩ := cntSub_realized (cxPatterns_ne_nil p hp) (L ++ R)
      exact ⟨xs, fun _ => ⟨h1, h2⟩⟩
    · exact ⟨[], fun h => absurd h hp⟩
  choose xs hxs using hreal
  have hpoint : ∀ p ∈ cxPatterns,
      cntSub p (L ++ R) + (if p = pat then 1 else 0) ≤
        cntSub p (L ++ (pat ++ R)) +
          ((xs p).filter fun i =>
            decide (i < L.length) && decide (L.length < i + p.length)).length := by
    intro p hp
    obtain ⟨hpack, hlen⟩ := hxs p hp
    have hp1 : 1 ≤ p.length := by
      have hne := cxPatterns_ne_nil p hp
      cases p with
      | nil => exact absurd rfl hne
      | cons _ _ => simp
    have hsplit := packing_split_count hp1 L (xs p)
    by_cases hppat : p = pat
    · subst hppat
      have htr := packing_transfer_plus (L := L) (R := R) hpack
      have hge := cntSub_ge_packing (cxPatterns_ne_nil p hp) _ _ htr
      rw [List.length_append, List.length_cons, List.length_map] at hge
      rw [if_pos rfl]
      omega
    · have htr := packing_transfer pat hpack
      have hge := cntSub_ge_packing (cxPatterns_ne_nil p hp) _ _ htr
      rw [List.length_append, List.length_map] at hge
      rw [if_neg hppat]
      omega
  have hsum := List.sum_le_sum
    (f := fun p => cntSub p (L ++ R) + (if p = pat then 1 else 0))
    (g := fun p => cntSub p (L ++ (pat ++ R)) +
      ((xs p).filter fun i =>
        decide (i < L.length) && decide (L.length < i + p.length)).length)
    hpoint
  rw [sum_map_add cxPatterns (fun p => cntSub p (L ++ R))
    (fun p => if p = pat then 1 else 0)] at hsum
  rw [sum_map_add cxPatterns (fun p => cntSub p (L ++ (pat ++ R)))
    (fun p => ((xs p).filter fun i =>
      decide (i < L.length) && decide (L.length < i + p.length)).length)]
    at hsum
  have hT := one_le_sum_map_ite hpatm
  have hC := crossing_total_le_one xs fun p hp => (hxs p hp).1
  omega

/-- `calculate_complexity` is `max 1` of the total greedy pattern count over
the scored block. -/
theorem calculate_complexity_eq_sum (code : String) (s e : Nat) :
    calculate_complexity code s e =
      max 1 ((cxPatterns.map fun p =>
        cntSub p (complexityBlock code s e).data).sum) := by
  have hform : calculate_complexity code s e =
      (max 1 (1 + ((complexity_keywords.map fun kw =>
          (pyCount (" " ++ kw ++ " ") (complexityBlock code s e) : Int) +
          (pyCount ("\t" ++ kw ++ " ") (complexityBlock code s e) : Int)).sum)
        + ((pyCount "def " (complexityBlock code s e) : Int) - 1))).toNat := rfl
  have hN : (cxPatterns.map fun p => cntSub p (complexityBlock code s e).data).sum
      = (complexity_keywords.map fun kw =>
          pyCount (" " ++ kw ++ " ") (complexityBlock code s e)).sum
        + (complexity_keywords.map fun kw =>
          pyCount ("\t" ++ kw ++ " ") (complexityBlock code s e)).sum
        + pyCount "def " (complexityBlock code s e) := by
    simp only [cxPatterns, ctrlPatterns, List.map_append, List.sum_append,
      List.map_map, Function.comp_def, pyCount, List.map_cons, List.map_nil,
      List.sum_cons, List.sum_nil]
    omega
  have hKInt : ((complexity_keywords.map fun kw =>
      (pyCount (" " ++ kw ++ " ") (complexityBlock code s e) : Int) +
      (pyCount ("\t" ++ kw ++ " ") (complexityBlock code s e) : Int)).sum)
    = (((complexity_keywords.map fun kw =>
          pyCount (" " ++ kw ++ " ") (complexityBlock code s e)).sum : Nat) : Int)
      + (((complexity_keywords.map fun kw =>
          pyCount ("\t" ++ kw ++ " ") (complexityBlock code s e)).sum : Nat) : Int) := by
    rw [Nat.cast_list_sum, Nat.cast_list_sum, List.map_map, List.map_map,
      ← sum_map_add]
    congr 1
  rw [hform, hKInt, hN]
  omega

/-- C5: for every code string and line range, `calculate_complexity` returns
a score of at least 1; and inserting one additional space- or tab-delimited
control-flow keyword occurrence inside the scored line-range block — the
modified code's block equals the original block with one of the counted
control patterns spliced in — never decreases the returned score. -/
theorem C5_complexity_monotone :
    (∀ (code : String) (element_start element_end : Nat),
        1 ≤ calculate_complexity code element_start element_end) ∧
    (∀ (code code' : String) (element_start element_end : Nat),
      ∀ pat ∈ ctrlPatterns, ∀ L R : List Char,
        (complexityBlock code element_start element_end).data = L ++ R →
        (complexityBlock code' element_start element_end).data =
          L ++ (pat ++ R) →
        calculate_complexity code element_start element_end ≤
          calculate_complexity code' element_start element_end) := by
  constructor
  · intro code s e
    rw [calculate_complexity_eq_sum]
    exact Nat.le_max_left 1 _
  · intro code code' s e pat hpat L R hLR hLR'
    rw [calculate_complexity_eq_sum code s e,
      calculate_complexity_eq_sum code' s e, hLR, hLR']
    exact max_le_max le_rfl (sum_cntSub_insert_mono pat L R hpat)

theorem C5_witness :
    ((" if ").data ∈ ctrlPatterns ∧
      (complexityBlock "a b\nc" 1 2).data = "a".data ++ " b\nc".data ∧
      (complexityBlock "a if  b\nc" 1 2).data =
        "a".data ++ ((" if ").data ++ " b\nc".data)) ∧
    1 ≤ calculate_complexity "a b\nc" 1 2 ∧
    calculate_complexity "a b\nc" 1 2 ≤ calculate_complexity "a if  b\nc" 1 2 :=
  ⟨⟨by decide, by decide, by decide⟩,
    C5_complexity_monotone.1 "a b\nc" 1 2,
    C5_complexity_monotone.2 "a b\nc" "a if  b\nc" 1 2 " if ".data (by decide)
      "a".data " b\nc".data (by decide) (by decide)⟩

end CSD
